import Mathlib

/-!
# Verification of the modus portfolio-return engine and quote provider

A shallow embedding, in Lean 4, of the two core modules of the `modus`
repository:

* `src/yahoo_finance.rs` — response validation (`check_consistency`), quote
  projection (`quotes`, `get_ith_quote`, `metadata`), currency normalization
  (`yahoo_it`), and point FX-rate resolution (`price_at_date`,
  `check_currency`);
* `src/stock_returns.rs` — date-range derivation (`get_range`,
  `TransactionDate::match_month`), the trading-calendar union (`find_dates`)
  and the cumulative-return computation (`total_returns`).

Modelling conventions:

* Rust `f64` values are modelled as `ℚ` (exact arithmetic; the algorithms
  use only field operations).  Division by zero is total in `ℚ` (`x / 0 = 0`),
  mirroring the code's decision not to guard zero denominators.
* Rust `u64`/`u32`/`usize` are modelled as `ℕ`.  The two places where the
  source subtracts from a `usize` length (`quotes.len() - 1`,
  `quotes.len() - 2`) are modelled as the equivalent overflow-free
  comparisons `i + 1 = len` / `i + 2 = len`, matching release-build wrap
  semantics (a wrapped huge value never equals `i`).
* Network calls are abstracted as function parameters (a fetch function for
  the provider module, an `EngineProvider` record for the return engine).
* A Rust panic (out-of-bounds index, `unwrap` of `None`) is modelled by the
  `Option` layer: `none` means the call panics, `some (Except.error e)` an
  error return, `some (Except.ok a)` a normal return.
* `chrono`'s `DateTime::from_timestamp(ts, 0).date_naive()` on the `u64`
  timestamps of quotes is modelled as `ts / 86400` (days since the Unix
  epoch); quote dates are therefore always `≥ 0`.  The unreachable fallback
  for timestamps outside `chrono`'s range (which yields the epoch) is not
  modelled; no claim exercises it.
-/

namespace Modus

/-- Decidable equality for `Except` (payloads of the modelled error enums are
decidable, so results can be compared with `decide`). -/
instance instDecEqExcept {ε α : Type} [DecidableEq ε] [DecidableEq α] :
    DecidableEq (Except ε α) := fun a b =>
  match a, b with
  | .ok x, .ok y =>
    if h : x = y then .isTrue (by rw [h]) else
      .isFalse (fun hc => by cases hc; exact h rfl)
  | .ok _, .error _ => .isFalse (fun hc => by cases hc)
  | .error _, .ok _ => .isFalse (fun hc => by cases hc)
  | .error x, .error y =>
    if h : x = y then .isTrue (by rw [h]) else
      .isFalse (fun hc => by cases hc; exact h rfl)

/-! ## Calendar arithmetic

The `time` crate's `Date` is represented by its day number relative to the
Unix epoch (1970-01-01).  `daysFromCivil`/`civilFromDays` are the standard
proleptic-Gregorian conversions (the same calendar `time` and `chrono`
implement).  `Int` division `/` in Lean is Euclidean division, which agrees
with floor division for the positive divisors used here. -/

/-- Leap year in the proleptic Gregorian calendar (as implemented by the
`time` crate's `is_leap_year`). -/
def isLeap (y : Int) : Bool :=
  y % 4 == 0 && (y % 100 != 0 || y % 400 == 0)

/-- Day number (days since 1970-01-01) of a civil date.  Months `1..12`,
days `1..`; standard days-from-civil algorithm. -/
def daysFromCivil (y : Int) (m d : Nat) : Int :=
  let y' : Int := if m ≤ 2 then y - 1 else y
  let era : Int := Int.fdiv y' 400
  let yoe : Nat := (y' - era * 400).toNat
  let doy : Nat := (153 * (if m > 2 then m - 3 else m + 9) + 2) / 5 + d - 1
  let doe : Nat := yoe * 365 + yoe / 4 - yoe / 100 + doy
  era * 146097 + (doe : Int) - 719468

/-- Civil date `(year, month, day)` of a day number; inverse of
`daysFromCivil`. -/
def civilFromDays (z : Int) : Int × Nat × Nat :=
  let z' : Int := z + 719468
  let era : Int := Int.fdiv z' 146097
  let doe : Nat := (z' - era * 146097).toNat
  let yoe : Nat := (doe - doe / 1460 + doe / 36524 - doe / 146096) / 365
  let y : Int := (yoe : Int) + era * 400
  let doy : Nat := doe - (365 * yoe + yoe / 4 - yoe / 100)
  let mp : Nat := (5 * doy + 2) / 153
  let d : Nat := doy - (153 * mp + 2) / 5 + 1
  let m : Nat := if mp < 10 then mp + 3 else mp - 9
  (if m ≤ 2 then y + 1 else y, m, d)

/-- The `time` crate's `Month` enum. -/
inductive Month
  | January | February | March | April | May | June
  | July | August | September | October | November | December
deriving DecidableEq

/-- Month number `1..12`. -/
def Month.num : Month → Nat
  | .January => 1 | .February => 2 | .March => 3 | .April => 4
  | .May => 5 | .June => 6 | .July => 7 | .August => 8
  | .September => 9 | .October => 10 | .November => 11 | .December => 12

/-- Days in a month (the `time` crate's `days_in_year_month`). -/
def daysInMonth (y : Int) : Month → Nat
  | .February => if isLeap y then 29 else 28
  | .April => 30 | .June => 30 | .September => 30 | .November => 30
  | _ => 31

/-- `time`'s `Date::from_calendar_date`: succeeds iff the year is within the
crate's supported range `-9999..=9999` and the day is valid for the month;
returns the day number of the date.  The error (`ComponentRange`) carries no
information the engine uses, so it is modelled as `Unit`. -/
def fromCalendarDate (y : Int) (m : Month) (d : Nat) : Except Unit Int :=
  if y < -9999 ∨ 9999 < y then .error ()
  else if 1 ≤ d ∧ d ≤ daysInMonth y m then .ok (daysFromCivil y m.num d)
  else .error ()

/-- `Date::MIN` of the `time` crate (`-9999-01-01`), as a day number. -/
def dateMinDays : Int := daysFromCivil (-9999) 1 1

/-- `chrono`'s `DateTime::from_timestamp(ts, 0).date_naive()` for the `u64`
quote timestamps: days since the epoch. -/
def dateOf (ts : Nat) : Int := ((ts / 86400 : Nat) : Int)

/-- Sentinel modelling `NaiveDate::MIN` (the initial `previous_date` in
`total_returns`).  Its exact value is immaterial: it is only ever compared
for equality against dates derived from `u64` timestamps, which are all
nonnegative, so any negative value behaves identically. -/
def naiveDateMin : Int := -100000000

/-! ### Date rendering (`NaiveDate::to_string`, `YYYY-MM-DD`) -/

/-- Decimal digit character. -/
def digitChar (n : Nat) : Char := Char.ofNat (48 + n)

/-- Two-digit zero-padded decimal. -/
def pad2 (n : Nat) : String := String.mk [digitChar (n / 10 % 10), digitChar (n % 10)]

/-- Four-digit zero-padded decimal. -/
def pad4 (n : Nat) : String :=
  String.mk [digitChar (n / 1000 % 10), digitChar (n / 100 % 10),
             digitChar (n / 10 % 10), digitChar (n % 10)]

/-- Decimal digits of a positive number (fuel-indexed, fuel `≥ n` suffices). -/
def natDigits : Nat → Nat → List Char
  | 0, _ => []
  | _ + 1, 0 => []
  | f + 1, n => natDigits f (n / 10) ++ [digitChar (n % 10)]

/-- `chrono`'s `Display` for `NaiveDate` (`%Y-%m-%d`): four-digit zero-padded
year for `0..=9999`, otherwise an explicit sign.  Engine dates derive from
nonnegative timestamps, so only the nonnegative branches are reachable. -/
def dateToString (z : Int) : String :=
  match civilFromDays z with
  | (y, m, d) =>
    (if 0 ≤ y ∧ y ≤ 9999 then pad4 y.toNat
     else (if y < 0 then "-" else "+") ++ String.mk (natDigits (y.natAbs + 1) y.natAbs))
    ++ "-" ++ pad2 m ++ "-" ++ pad2 d

/-! ## Error enums

`StocksError` and `ProviderError` are `#[derive(From)]` enums: the custom
derive macro (`modus-derive`) maps any source error to the like-named
variant, discarding the payload, so the variants are modelled payload-free.
`YahooError`'s payloads are likewise never inspected by this code. -/

/-- `yahoo_finance::YahooError`. -/
inductive YahooError
  | FetchFailed | DeserializeFailed | ConnectionFailed | InvalidJson
  | EmptyDataSet | DataInconsistency | BuilderFailed
deriving DecidableEq

/-- `yahoo_finance::ProviderError` (`#[derive(From)]`: `reqwest::Error ↦
Error`, `YahooError ↦ YahooError`). -/
inductive ProviderError
  | Error | YahooError
deriving DecidableEq

/-- `stock_returns::StocksError` (`#[derive(From)]`: `ComponentRange ↦
ComponentRange`, `ProviderError ↦ ProviderError`). -/
inductive StocksError
  | ComponentRange | ProviderError
deriving DecidableEq

/-- The `From<YahooError> for ProviderError` conversion generated by the
derive macro (used by the `?` operator in `yahoo_finance.rs`). -/
def convYE : YahooError → ProviderError := fun _ => .YahooError

/-! ## Quote provider data model (`yahoo_finance.rs`) -/

/-- `yahoo_finance::Quote`.  `open` is a Lean keyword, hence the field name
`open_`. -/
structure Quote where
  timestamp : Nat
  open_ : ℚ
  high : ℚ
  low : ℚ
  volume : Nat
  close : ℚ
  adjclose : ℚ
deriving DecidableEq

/-- `yahoo_finance::YMetaData`. -/
structure YMetaData where
  currency : String
  symbol : String
  exchange_name : String
  instrument_type : String
deriving DecidableEq

/-- `yahoo_finance::QuoteList` (parallel per-day arrays, entries nullable). -/
structure QuoteList where
  volume : List (Option Nat)
  high : List (Option ℚ)
  close : List (Option ℚ)
  low : List (Option ℚ)
  open_ : List (Option ℚ)
deriving DecidableEq

/-- `yahoo_finance::AdjClose`. -/
structure AdjClose where
  adjclose : List (Option ℚ)
deriving DecidableEq

/-- `yahoo_finance::QuoteBlock`. -/
structure QuoteBlock where
  quote : List QuoteList
  adjclose : Option (List AdjClose)
deriving DecidableEq

/-- `yahoo_finance::YQuoteBlock`. -/
structure YQuoteBlock where
  meta : YMetaData
  timestamp : List Nat
  indicators : QuoteBlock
deriving DecidableEq

/-- `yahoo_finance::YChart`. -/
structure YChart where
  result : List YQuoteBlock
  error : Option String
deriving DecidableEq

/-- `yahoo_finance::YResponse`. -/
structure YResponse where
  chart : YChart
deriving DecidableEq

/-! ## Response validation and quote projection -/

/-- The loop body of `YResponse::check_consistency`, over the remaining
result blocks.  `none` models the panic on `stock.indicators.quote[0]` (or
`adjclose[0]`) when that vector is empty. -/
def checkBlocks : List YQuoteBlock → Option (Except YahooError Unit)
  | [] => some (.ok ())
  | stock :: rest =>
    let n := stock.timestamp.length
    if n = 0 then some (.error .EmptyDataSet)
    else
      match stock.indicators.quote.get? 0 with
      | none => none
      | some quote =>
        if quote.open_.length ≠ n ∨ quote.high.length ≠ n ∨ quote.low.length ≠ n
            ∨ quote.volume.length ≠ n ∨ quote.close.length ≠ n then
          some (.error .DataInconsistency)
        else
          match stock.indicators.adjclose with
          | some adj =>
            match adj.get? 0 with
            | none => none
            | some a0 =>
              if a0.adjclose.length ≠ n then some (.error .DataInconsistency)
              else checkBlocks rest
          | none => checkBlocks rest

/-- `YResponse::check_consistency`. -/
def check_consistency (r : YResponse) : Option (Except YahooError Unit) :=
  checkBlocks r.chart.result

/-- Second half of `QuoteBlock::get_ith_quote`: everything after the
`adjclose` lookup (`adjv` is the looked-up nullable adjusted close, `none`
when the response has no adjclose series at all). -/
def buildQuote (qb : QuoteBlock) (timestamp i : Nat) (adjv : Option ℚ) :
    Option (Except YahooError Quote) :=
  match qb.quote.get? 0 with
  | none => none
  | some quote =>
    match quote.close.get? i with
    | none => none
    | some closeOpt =>
      match closeOpt with
      | none => some (.error .EmptyDataSet)
      | some c =>
        match quote.open_.get? i, quote.high.get? i, quote.low.get? i,
            quote.volume.get? i with
        | some o, some h, some l, some v =>
          some (.ok ⟨timestamp, o.getD 0, h.getD 0, l.getD 0, v.getD 0, c, adjv.getD 0⟩)
        | _, _, _, _ => none

/-- `QuoteBlock::get_ith_quote`. -/
def get_ith_quote (qb : QuoteBlock) (timestamp i : Nat) :
    Option (Except YahooError Quote) :=
  match qb.adjclose with
  | some adj =>
    match adj.get? 0 with
    | none => none
    | some a0 =>
      match a0.adjclose.get? i with
      | none => none
      | some adjv => buildQuote qb timestamp i adjv
  | none => buildQuote qb timestamp i none

/-- The index loop of `YResponse::quotes`: collect indices `i, i+1, ...`
(`k` indices remain).  A quote whose `close` is null (`Err` from
`get_ith_quote`) is skipped; a panic propagates. -/
def collectQuotes (stock : YQuoteBlock) : Nat → Nat → Option (List Quote)
  | _, 0 => some []
  | i, k + 1 =>
    match stock.timestamp.get? i with
    | none => none
    | some ts =>
      match get_ith_quote stock.indicators ts i with
      | none => none
      | some (.error _) => collectQuotes stock (i + 1) k
      | some (.ok q) => (collectQuotes stock (i + 1) k).map (q :: ·)

/-- `YResponse::quotes`.  After a (vacuously) successful consistency check,
`self.chart.result[0]` panics when the result list is empty. -/
def quotes (r : YResponse) : Option (Except YahooError (List Quote)) :=
  match check_consistency r with
  | none => none
  | some (.error e) => some (.error e)
  | some (.ok _) =>
    match r.chart.result.get? 0 with
    | none => none
    | some stock =>
      match collectQuotes stock 0 stock.timestamp.length with
      | none => none
      | some qs => some (.ok qs)

/-- `YResponse::metadata`. -/
def metadata (r : YResponse) : Option (Except YahooError YMetaData) :=
  match check_consistency r with
  | none => none
  | some (.error e) => some (.error e)
  | some (.ok _) =>
    match r.chart.result.get? 0 with
    | none => none
    | some stock => some (.ok stock.meta)

/-! ## Currency normalization (`yahoo_it`) and FX-rate resolution -/

/-- The abstracted network fetch (`fuck_429`): HTTP transport,
deserialization and schema validation folded into one function from the
request parameters to a response or a `ProviderError`. -/
def FetchFn : Type := String → Int → Int → Except ProviderError YResponse

/-- The map body of `yahoo_it`'s non-USD branch: convert each native quote's
`adjclose` by the same-calendar-date FX quote, falling back to the last FX
quote; `currency_quotes.last().unwrap()` panics when the FX series is
empty. -/
def fxConvert (cqs : List Quote) : List Quote → Option (List Quote)
  | [] => some []
  | q :: rest =>
    match cqs.find? (fun x => dateOf x.timestamp == dateOf q.timestamp) with
    | some c => (fxConvert cqs rest).map ({ q with adjclose := q.adjclose * c.adjclose } :: ·)
    | none =>
      match cqs.getLast? with
      | none => none
      | some c => (fxConvert cqs rest).map ({ q with adjclose := q.adjclose * c.adjclose } :: ·)

/-- `yahoo_finance::yahoo_it`, with the network abstracted by `fetch`. -/
def yahoo_it (fetch : FetchFn) (ticker : String) (start end_ : Int) :
    Option (Except ProviderError (List Quote)) :=
  match fetch ticker start end_ with
  | .error e => some (.error e)
  | .ok provider =>
    match metadata provider with
    | none => none
    | some (.error e) => some (.error (convYE e))
    | some (.ok md) =>
      if md.currency = "USD" then
        match quotes provider with
        | none => none
        | some (.error e) => some (.error (convYE e))
        | some (.ok qs) => some (.ok qs)
      else
        match fetch (md.currency ++ "=X") start end_ with
        | .error e => some (.error e)
        | .ok cresp =>
          match quotes cresp with
          | none => none
          | some (.error e) => some (.error (convYE e))
          | some (.ok cqs) =>
            match quotes provider with
            | none => none
            | some (.error e) => some (.error (convYE e))
            | some (.ok nqs) =>
              match fxConvert cqs nqs with
              | none => none
              | some out => some (.ok out)

/-- `yahoo_finance::get_quotes` (public wrapper around `yahoo_it`). -/
def get_quotes (fetch : FetchFn) (ticker : String) (start end_ : Int) :
    Option (Except ProviderError (List Quote)) :=
  yahoo_it fetch ticker start end_

/-- `yahoo_finance::price_at_date`: close of the first quote of the FX pair
`{ticker}=X` over the single-day range `[date, date]`. -/
def price_at_date (fetch : FetchFn) (ticker : String) (date : Int) :
    Option (Except ProviderError ℚ) :=
  match fetch (ticker ++ "=X") date date with
  | .error e => some (.error e)
  | .ok r =>
    match quotes r with
    | none => none
    | some (.error e) => some (.error (convYE e))
    | some (.ok qs) =>
      match qs.head? with
      | some c => some (.ok c.close)
      | none => some (.error .YahooError)

/-- `yahoo_finance::check_currency`: the instrument's currency is read from
a fetch at the current instant (`now`); any fetch or metadata *error* falls
back to `1.0`, a non-USD currency delegates to `price_at_date`. -/
def check_currency (fetch : FetchFn) (now : Int) (ticker : String) (date : Int) :
    Option (Except ProviderError ℚ) :=
  match fetch ticker now now with
  | .error _ => some (.ok 1)
  | .ok s =>
    match metadata s with
    | none => none
    | some (.error _) => some (.ok 1)
    | some (.ok r) =>
      if r.currency ≠ "USD" then price_at_date fetch r.currency date
      else some (.ok 1)

/-! ## Portfolio return engine data model (`stock_returns.rs`) -/

/-- `stock_returns::TransactionDate` (`year: i32`, `month: u32`, `day: u8`). -/
structure TransactionDate where
  year : Int
  month : Nat
  day : Nat
deriving DecidableEq

/-- `TransactionDate::match_month`: months outside `1..=12` map to
`January`. -/
def TransactionDate.match_month (d : TransactionDate) : Month :=
  match d.month with
  | 1 => .January | 2 => .February | 3 => .March | 4 => .April
  | 5 => .May | 6 => .June | 7 => .July | 8 => .August
  | 9 => .September | 10 => .October | 11 => .November | 12 => .December
  | _ => .January

/-- `stock_returns::Transaction`. -/
structure Transaction where
  date : TransactionDate
  price : ℚ
deriving DecidableEq

/-- `stock_returns::Equity`. -/
structure Equity where
  ticker : String
  buy : Transaction
  sell : Option Transaction
  quantity : Nat
deriving DecidableEq

/-- `stock_returns::Portfolio`. -/
structure Portfolio where
  portfolio : List Equity
deriving DecidableEq

/-- `stock_returns::Position`. -/
structure Position where
  old_price : ℚ
  price : ℚ
  quantity : Nat
deriving DecidableEq

/-- The provider functions the engine consumes (`get_quotes` /
`check_currency` of `yahoo_finance.rs`), abstracted.  `OffsetDateTime`
values are their Unix timestamps. -/
structure EngineProvider where
  get_quotes : String → Int → Int → Option (Except ProviderError (List Quote))
  check_currency : String → Int → Option (Except ProviderError ℚ)

/-! ## Range derivation and the trading calendar -/

/-- `stock_returns::get_range`.  The buy date propagates a `ComponentRange`
error; an invalid *sell* date is clamped to `Date::MIN` by `unwrap_or`; an
absent sell date means `OffsetDateTime::now_utc()` (the `now` parameter).
Timestamps: midnight UTC for the start, `23:59:59` for a sold end. -/
def get_range (n : Equity) (now : Int) : Except Unit (Int × Int) :=
  match fromCalendarDate n.buy.date.year n.buy.date.match_month n.buy.date.day with
  | .error e => .error e
  | .ok d =>
    let start := d * 86400
    let end_ :=
      match n.sell with
      | some s =>
        (match fromCalendarDate s.date.year s.date.match_month s.date.day with
         | .ok d2 => d2
         | .error _ => dateMinDays) * 86400 + 86399
      | none => now
    .ok (start, end_)

/-- The first loop of `find_dates`: `get_range` per equity, `?`-propagated
(the `From<ComponentRange>` conversion yields
`StocksError::ComponentRange`). -/
def rangesLoop (now : Int) : List Equity → Except StocksError (List (Int × Int))
  | [] => .ok []
  | n :: rest =>
    match get_range n now with
    | .error _ => .error .ComponentRange
    | .ok r =>
      match rangesLoop now rest with
      | .error e => .error e
      | .ok rs => .ok (r :: rs)

/-- The second loop of `find_dates`: fetch each equity's quotes over the
global `[start, end]` range, `?`-propagated. -/
def fetchLoop (P : EngineProvider) (start end_ : Int) :
    List Equity → Option (Except StocksError (List (List Quote)))
  | [] => some (.ok [])
  | n :: rest =>
    match P.get_quotes n.ticker start end_ with
    | none => none
    | some (.error _) => some (.error .ProviderError)
    | some (.ok qs) =>
      match fetchLoop P start end_ rest with
      | none => none
      | some (.error e) => some (.error e)
      | some (.ok rest') => some (.ok (qs :: rest'))

/-- `BTreeSet::insert` on a strictly-sorted list. -/
def insertDate : List Int → Int → List Int
  | [], d => [d]
  | k :: rest, d =>
    if d < k then d :: k :: rest
    else if d = k then k :: rest
    else k :: insertDate rest d

/-- `stock_returns::find_dates`: the global trading calendar (all distinct
quote dates over the global range), as the sorted list a `BTreeSet`
iterates.  With an empty portfolio the fold seed `range[0]` panics
(`none`). -/
def find_dates (P : EngineProvider) (now : Int) (item : Portfolio) :
    Option (Except StocksError (List Int)) :=
  match rangesLoop now item.portfolio with
  | .error e => some (.error e)
  | .ok ranges =>
    match ranges with
    | [] => none
    | r0 :: _ =>
      let se := ranges.foldl (fun se r => (min se.1 r.1, max se.2 r.2)) r0
      match fetchLoop P se.1 se.2 item.portfolio with
      | none => none
      | some (.error e) => some (.error e)
      | some (.ok hist) =>
        some (.ok ((hist.flatMap (fun f => f.map (fun g => dateOf g.timestamp))).foldl
          insertDate []))

/-! ## Position construction -/

/-- `BTreeMap<NaiveDate, Vec<Position>>::entry(date).or_insert(vec).push(p)`
on a strictly key-sorted association list. -/
def insertPos : List (Int × List Position) → Int → Position → List (Int × List Position)
  | [], d, p => [(d, [p])]
  | (k, ps) :: rest, d, p =>
    if d < k then (d, [p]) :: (k, ps) :: rest
    else if d = k then (k, ps ++ [p]) :: rest
    else (k, ps) :: insertPos rest d p

/-- The gap-backfill loop (`for missing_date_index in (previous_index + 1)
..current_index`): starting at index `j` with `count` indices to go, insert
the flat position `p` at each skipped calendar date.
`every_date.iter().nth(j).unwrap()` panics (`none`) out of range. -/
def fillGaps (every : List Int) (p : Position) :
    Nat → Nat → List (Int × List Position) → Option (List (Int × List Position))
  | _, 0, ret => some ret
  | j, count + 1, ret =>
    match every.get? j with
    | none => none
    | some md => fillGaps every p (j + 1) count (insertPos ret md p)

/-- The gap-backfill step performed before a quote `m` (at loop index `i`,
previous quote date `prev`) is pushed: for `i > 0`, look up both dates'
positions in the global calendar (`unwrap` panics, `none`, when absent) and
fill every calendar date strictly between them with the flat position built
from the carried `old` price.  The `usize` difference
`current_index - previous_index > 1` is rendered as the count
`cIdx - (pIdx + 1)` of dates to fill (zero when there is no gap, including
the wrap case `cIdx ≤ pIdx` where the Rust range is empty). -/
def gapStep (every : List Int) (quantity : Nat) (old : ℚ) (m : Quote)
    (i : Nat) (prev : Int) (ret : List (Int × List Position)) :
    Option (List (Int × List Position)) :=
  if i > 0 then
    match every.findIdx? (fun x => x == prev),
        every.findIdx? (fun x => x == dateOf m.timestamp) with
    | some pIdx, some cIdx =>
      fillGaps every
        ⟨old * m.close / m.adjclose, old * m.close / m.adjclose, quantity⟩
        (pIdx + 1) (cIdx - (pIdx + 1)) ret
    | _, _ => none
  else some ret

/-- The per-quote loop of `total_returns` for one equity: `i` is the loop
index, `old` the carried `old_price`, `prev` the previous quote's date
(initially the `NaiveDate::MIN` sentinel).  Boundary tests
`i == quotes.len() - 1` / `- 2` are written `i + 1 = len` / `i + 2 = len`
(see the module comment on `usize` subtraction). -/
def quotesFold (every : List Int) (len quantity : Nat) (sca eca : ℚ)
    (sellUSD : Option ℚ) :
    Nat → ℚ → Int → List Quote → List (Int × List Position) →
    Option (List (Int × List Position))
  | _, _, _, [], ret => some ret
  | i, old, prev, m :: rest, ret =>
    let date := dateOf m.timestamp
    match gapStep every quantity old m i prev ret with
    | none => none
    | some ret1 =>
      let pos : Position :=
        if i + 1 = len then
          ⟨old * m.close / m.adjclose,
           match sellUSD with
           | some sp => sp * m.close / m.adjclose
           | none => m.adjclose,
           quantity⟩
        else if i = 0 then
          ⟨old * m.close / m.adjclose, m.close * sca * m.close / m.adjclose, quantity⟩
        else ⟨old, m.adjclose, quantity⟩
      let old' := if i + 2 = len then m.close * eca else m.adjclose
      quotesFold every len quantity sca eca sellUSD (i + 1) old' date rest
        (insertPos ret1 date pos)

/-- The per-equity body of `total_returns`' main loop: range, FX factors at
the buy/end dates, the equity's own quote series, then the per-quote fold.
Provider errors map to `StocksError::ProviderError` via `?`. -/
def processEquity (P : EngineProvider) (now : Int) (every : List Int)
    (ret : List (Int × List Position)) (n : Equity) :
    Option (Except StocksError (List (Int × List Position))) :=
  match get_range n now with
  | .error _ => some (.error .ComponentRange)
  | .ok (start, end_) =>
    match P.check_currency n.ticker start with
    | none => none
    | some (.error _) => some (.error .ProviderError)
    | some (.ok sca) =>
      match P.check_currency n.ticker end_ with
      | none => none
      | some (.error _) => some (.error .ProviderError)
      | some (.ok eca) =>
        let old := n.buy.price * sca
        let sellUSD := n.sell.map (fun s => s.price * eca)
        match P.get_quotes n.ticker start end_ with
        | none => none
        | some (.error _) => some (.error .ProviderError)
        | some (.ok qs) =>
          match quotesFold every qs.length n.quantity sca eca sellUSD
              0 old naiveDateMin qs ret with
          | none => none
          | some ret' => some (.ok ret')

/-- The main loop of `total_returns` over the portfolio's equities. -/
def equitiesLoop (P : EngineProvider) (now : Int) (every : List Int) :
    List Equity → List (Int × List Position) →
    Option (Except StocksError (List (Int × List Position)))
  | [], ret => some (.ok ret)
  | n :: rest, ret =>
    match processEquity P now every ret n with
    | none => none
    | some (.error e) => some (.error e)
    | some (.ok ret') => equitiesLoop P now every rest ret'

/-- `total_returns` up to (and including) the construction of the
`BTreeMap<NaiveDate, Vec<Position>>` of per-day positions. -/
def buildReturns (P : EngineProvider) (now : Int) (item : Portfolio) :
    Option (Except StocksError (List (Int × List Position))) :=
  match find_dates P now item with
  | none => none
  | some (.error e) => some (.error e)
  | some (.ok every) => equitiesLoop P now every item.portfolio []

/-! ## Aggregation and the cumulative fold -/

/-- The per-date aggregation of `total_returns`: capital at day start
(`Σ old_price · quantity`, a `fold`), then the day's rate as the fold of
`price · quantity / cap`. -/
def aggRate (positions : List Position) : ℚ :=
  let cap := positions.foldl (fun acc pos => acc + pos.old_price * (pos.quantity : ℚ)) 0
  positions.foldl (fun acc pos => acc + pos.price * (pos.quantity : ℚ) / cap) 0

/-- The cumulative fold of `total_returns` (`cumulative *= rate`), emitting
`(date.to_string(), (cumulative - 1) * 100)` in ascending date order. -/
def cumulate (c : ℚ) : List (Int × List Position) → List (String × ℚ)
  | [] => []
  | (d, ps) :: rest =>
    let c' := c * aggRate ps
    (dateToString d, (c' - 1) * 100) :: cumulate c' rest

/-- `BTreeMap<String, f64>::insert` on a string-sorted association list
(later inserts overwrite equal keys), modelling the final `.collect()`. -/
def insertStr : List (String × ℚ) → String × ℚ → List (String × ℚ)
  | [], kv => [kv]
  | (k, v) :: rest, (k', v') =>
    if k' < k then (k', v') :: (k, v) :: rest
    else if k' = k then (k', v') :: rest
    else (k, v) :: insertStr rest (k', v')

/-- `stock_returns::total_returns`. -/
def total_returns (P : EngineProvider) (now : Int) (item : Portfolio) :
    Option (Except StocksError (List (String × ℚ))) :=
  match buildReturns P now item with
  | none => none
  | some (.error e) => some (.error e)
  | some (.ok entries) => some (.ok ((cumulate 1 entries).foldl insertStr []))

/-! ## Spec-side definitions

Definitions below restate quantities in the spec's vocabulary; they are
compared against the source-derived pipeline by the theorems. -/

/-- The spec's per-date aggregate daily rate: the sum of `price × quantity`
over the date's positions divided by the sum of `old_price × quantity`. -/
def claimRate (ps : List Position) : ℚ :=
  (ps.map (fun p => p.price * (p.quantity : ℚ))).sum /
    (ps.map (fun p => p.old_price * (p.quantity : ℚ))).sum

/-- The entries of a successful (`some (Except.ok _)`) result. -/
def okEntries :
    Option (Except StocksError (List (Int × List Position))) →
    Option (List (Int × List Position))
  | some (.ok e) => some e
  | _ => none

/-- Observer: the list of positions the per-day returns map holds at date
`d` after a successful position-construction phase. -/
def positionsAt (P : EngineProvider) (now : Int) (item : Portfolio) (d : Int) :
    Option (List Position) :=
  (okEntries (buildReturns P now item)).bind (fun entries => entries.lookup d)

/-- The FX factor the spec describes for a native quote with timestamp `ts`:
the adjusted close of the FX quote on the same calendar date, or, failing
that, of the most recent (last) FX quote of the fetched range. -/
def fxFor (cqs : List Quote) (ts : Nat) : Option ℚ :=
  match cqs.find? (fun x => dateOf x.timestamp == dateOf ts) with
  | some c => some c.adjclose
  | none => cqs.getLast?.map (fun c => c.adjclose)

/-- The adjusted-close series of a block, when the response carries one
(`none` when the series is wholly absent). -/
def adjSeries (b : YQuoteBlock) : Option (List (Option ℚ)) :=
  match b.indicators.adjclose with
  | none => none
  | some adj => (adj.get? 0).map (fun a0 => a0.adjclose)

/-- The spec's description of `quotes()` on a validated block: one `Quote`
per index with non-null close (in index order, nothing substituted for the
skipped indices); `open`/`high`/`low` default to `0.0`, `volume` to `0`,
and `adjusted_close` to `0` when its series is wholly absent (or its entry
is null). -/
def specProject (b : YQuoteBlock) (ql : QuoteList) : List Quote :=
  (List.range b.timestamp.length).filterMap (fun i =>
    match ql.close.get? i with
    | some (some c) =>
      some ⟨(b.timestamp.get? i).getD 0,
            ((ql.open_.get? i).getD none).getD 0,
            ((ql.high.get? i).getD none).getD 0,
            ((ql.low.get? i).getD none).getD 0,
            ((ql.volume.get? i).getD none).getD 0,
            c,
            ((((adjSeries b).getD []).get? i).getD none).getD 0⟩
    | _ => none)

/-! ## Concrete scenarios used by the claims -/

/-- The three-day quote series of the spec's worked scenario
(2023-02-01 … 2023-02-03, close = adjclose = 100, 110, 105). -/
def scenarioQuotes : List Quote :=
  [⟨1675209600, 0, 0, 0, 0, 100, 100⟩,
   ⟨1675296000, 0, 0, 0, 0, 110, 110⟩,
   ⟨1675382400, 0, 0, 0, 0, 105, 105⟩]

/-- A provider reporting USD throughout (all FX factors `1.0`) and returning
`scenarioQuotes` for every request. -/
def usdProvider : EngineProvider :=
  { get_quotes := fun _ _ _ => some (.ok scenarioQuotes)
    check_currency := fun _ _ => some (.ok 1) }

/-- The spec's worked portfolio: one equity `T`, bought 2023-02-01 at 100,
never sold, quantity 1. -/
def pfC1 : Portfolio := ⟨[⟨"T", ⟨⟨2023, 2, 1⟩, 100⟩, none, 1⟩]⟩

/-- `pfC1` with a sell transaction carrying the invalid date 2023-02-31. -/
def pfBadSell : Portfolio :=
  ⟨[⟨"T", ⟨⟨2023, 2, 1⟩, 100⟩, some ⟨⟨2023, 2, 31⟩, 100⟩, 1⟩]⟩

/-- A single-equity portfolio whose buy date 2023-02-30 is invalid. -/
def pfBadBuy : Portfolio := ⟨[⟨"T", ⟨⟨2023, 2, 30⟩, 100⟩, none, 1⟩]⟩

/-- Gap scenario, equity `A`: quotes on 2023-02-01 and 2023-02-03 only. -/
def gapQuotesA (ca1 aa1 ca3 aa3 : ℚ) : List Quote :=
  [⟨1675209600, 0, 0, 0, 0, ca1, aa1⟩, ⟨1675382400, 0, 0, 0, 0, ca3, aa3⟩]

/-- Gap scenario, equity `B`: quotes on all of 2023-02-01 … 2023-02-03. -/
def gapQuotesB (cb1 ab1 cb2 ab2 cb3 ab3 : ℚ) : List Quote :=
  [⟨1675209600, 0, 0, 0, 0, cb1, ab1⟩, ⟨1675296000, 0, 0, 0, 0, cb2, ab2⟩,
   ⟨1675382400, 0, 0, 0, 0, cb3, ab3⟩]

/-- USD provider serving `gapQuotesA` for ticker `A` and `gapQuotesB`
otherwise. -/
def gapProvider (ca1 aa1 ca3 aa3 cb1 ab1 cb2 ab2 cb3 ab3 : ℚ) : EngineProvider :=
  { get_quotes := fun t _ _ =>
      if t = "A" then some (.ok (gapQuotesA ca1 aa1 ca3 aa3))
      else some (.ok (gapQuotesB cb1 ab1 cb2 ab2 cb3 ab3))
    check_currency := fun _ _ => some (.ok 1) }

/-- Gap scenario portfolio: equities `A` and `B`, both bought 2023-02-01,
never sold. -/
def gapPortfolio (buyA buyB : ℚ) (qa qb : Nat) : Portfolio :=
  ⟨[⟨"A", ⟨⟨2023, 2, 1⟩, buyA⟩, none, qa⟩,
    ⟨"B", ⟨⟨2023, 2, 1⟩, buyB⟩, none, qb⟩]⟩

/-- Metadata of a USD-denominated instrument. -/
def mdUSD : YMetaData := ⟨"USD", "T", "NYQ", "EQUITY"⟩

/-- Metadata of a EUR-denominated instrument. -/
def mdEUR : YMetaData := ⟨"EUR", "TE", "GER", "EQUITY"⟩

/-- A consistent one-day EUR response (close 2, adjusted close 3,
session timestamp 86400). -/
def respEUR : YResponse :=
  ⟨⟨[⟨mdEUR, [86400], ⟨[⟨[some 5], [some 1], [some 2], [some 1], [some 1]⟩],
    some [⟨[some 3]⟩]⟩⟩], none⟩⟩

/-- A consistent one-day FX response whose session timestamp 90000 truncates
to the same calendar date as 86400 (adjusted close 7). -/
def respFX : YResponse :=
  ⟨⟨[⟨mdUSD, [90000], ⟨[⟨[some 9], [some 4], [some 6], [some 4], [some 4]⟩],
    some [⟨[some 7]⟩]⟩⟩], none⟩⟩

/-- A consistent one-day USD response (close 8). -/
def respUSD : YResponse :=
  ⟨⟨[⟨mdUSD, [86400], ⟨[⟨[some 2], [some 8], [some 8], [some 8], [some 8]⟩],
    some [⟨[some 8]⟩]⟩⟩], none⟩⟩

/-- Fetch function serving `respFX` for the FX pair `EUR=X` and `respEUR`
for anything else. -/
def fetchEUR : FetchFn := fun t _ _ =>
  if t = "EUR=X" then .ok respFX else .ok respEUR

/-- Fetch function always serving `respUSD`. -/
def fetchUSD : FetchFn := fun _ _ _ => .ok respUSD

/-- A response block whose timestamp array is empty. -/
def respEmptyTs : YResponse :=
  ⟨⟨[⟨mdUSD, [], ⟨[⟨[], [], [], [], []⟩], none⟩⟩], none⟩⟩

/-- A response block with one timestamp but a two-element close array. -/
def respMismatch : YResponse :=
  ⟨⟨[⟨mdUSD, [86400], ⟨[⟨[some 1], [some 1], [some 1, some 2], [some 1],
    [some 1]⟩], none⟩⟩], none⟩⟩

/-- A sparse three-day block: `close` null at index 1, `open`/`high`/`low`/
`volume` each null somewhere, and no adjusted-close series at all. -/
def respSparse : YResponse :=
  ⟨⟨[⟨mdUSD, [0, 86400, 172800],
    ⟨[⟨[none, some 4, some 5],
       [some 9, none, none],
       [some 1, none, some 2],
       [none, none, none],
       [none, some 8, none]⟩], none⟩⟩], none⟩⟩

/-! ## Helper lemmas -/

/-- A successful position-construction phase determines the whole result:
the cumulative fold in ascending date order, collected into the
string-keyed map. -/
theorem total_returns_ok {P : EngineProvider} {now : Int} {item : Portfolio}
    {entries : List (Int × List Position)}
    (h : buildReturns P now item = some (.ok entries)) :
    total_returns P now item =
      some (.ok ((cumulate 1 entries).foldl insertStr [])) := by
  unfold total_returns; rw [h]

theorem dateToString_d1 : dateToString 19389 = "2023-02-01" := by decide

theorem dateToString_d2 : dateToString 19390 = "2023-02-02" := by decide

theorem dateToString_d3 : dateToString 19391 = "2023-02-03" := by decide

/-- An invalid buy date makes `get_range` fail. -/
theorem get_range_error_of_buy {n : Equity} {now : Int}
    (h : fromCalendarDate n.buy.date.year n.buy.date.match_month n.buy.date.day
      = .error ()) :
    get_range n now = .error () := by
  unfold get_range; rw [h]

/-- The range loop of `find_dates` fails with `ComponentRange` as soon as
any equity's range derivation fails. -/
theorem rangesLoop_error {now : Int} :
    ∀ (l : List Equity) (e : Equity), e ∈ l → get_range e now = .error () →
      rangesLoop now l = .error .ComponentRange := by
  intro l
  induction l with
  | nil => intro e he; cases he
  | cons a l ih =>
    intro e he hge
    unfold rangesLoop
    cases hm : get_range a now with
    | error u => rfl
    | ok r =>
      rcases List.mem_cons.mp he with rfl | he'
      · rw [hm] at hge; cases hge
      · rw [ih e he' hge]

/-! ## C9 — `total_returns` panics on the empty portfolio -/

/-- **C9.**  `total_returns` is not total at the public interface on empty
input: with an empty equity list, `find_dates` indexes `range[0]` of an
empty vector and panics (modelled `none`), for every provider and every
current instant — the call produces neither an `Ok` result nor a
`StocksError` value. -/
theorem c9_empty_portfolio_panics (P : EngineProvider) (now : Int) :
    total_returns P now ⟨[]⟩ = none ∧ find_dates P now ⟨[]⟩ = none :=
  ⟨rfl, rfl⟩

/-! ## C1 — the spec's worked three-day scenario -/

/-- The position-construction phase of the worked scenario. -/
theorem buildReturns_c1 :
    buildReturns usdProvider 1675382400 pfC1 =
      some (.ok [(19389, [⟨100, 100, 1⟩]), (19390, [⟨100, 110, 1⟩]),
                 (19391, [⟨110, 105, 1⟩])]) := by
  norm_num [buildReturns, find_dates, rangesLoop, get_range, fromCalendarDate,
    daysInMonth, daysFromCivil, isLeap, fetchLoop, usdProvider, pfC1,
    scenarioQuotes, dateOf, insertDate, equitiesLoop, processEquity,
    quotesFold, gapStep, fillGaps, insertPos, naiveDateMin,
    TransactionDate.match_month, Month.num, List.findIdx?, List.flatMap]

/-- The full worked scenario evaluates to
`{2023-02-01 ↦ 0, 2023-02-02 ↦ 10, 2023-02-03 ↦ 5}`. -/
theorem total_returns_c1 :
    total_returns usdProvider 1675382400 pfC1 =
      some (.ok [("2023-02-01", 0), ("2023-02-02", 10), ("2023-02-03", 5)]) := by
  have hC : cumulate 1 [((19389 : Int), [(⟨100, 100, 1⟩ : Position)]),
        (19390, [⟨100, 110, 1⟩]), (19391, [⟨110, 105, 1⟩])] =
      [("2023-02-01", 0), ("2023-02-02", 10), ("2023-02-03", 5)] := by
    norm_num [cumulate, aggRate, dateToString_d1, dateToString_d2, dateToString_d3]
  rw [total_returns_ok buildReturns_c1, hC]
  simp +decide [insertStr, String.lt_iff_toList_lt, List.foldl]

/-- **C1, counterexample.**  In the worked scenario the value at
`2023-02-03` is exactly `5`, not approximately `4.545`: the claim's gloss
`(1.10 × 105/110 − 1) × 100 ≈ 4.545` is off by `0.455`. -/
theorem c1_counterexample :
    total_returns usdProvider 1675382400 pfC1 =
      some (.ok [("2023-02-01", 0), ("2023-02-02", 10), ("2023-02-03", 5)])
    ∧ ((11 / 10 : ℚ) * (105 / 110) - 1) * 100 = 5
    ∧ (5 : ℚ) - 4545 / 1000 = 455 / 1000 := by
  refine ⟨total_returns_c1, by norm_num, by norm_num⟩

/-- **C1, amended.**  For the spec's worked portfolio and provider,
`total_returns` returns `Ok` with exactly the three entries
`2023-02-01 ↦ 0.0`, `2023-02-02 ↦ 10.0` and
`2023-02-03 ↦ (1.10 × 105/110 − 1) × 100 = 5.0`. -/
theorem c1_worked_scenario :
    total_returns usdProvider 1675382400 pfC1 =
      some (.ok [("2023-02-01", 0), ("2023-02-02", 10),
                 ("2023-02-03", ((11 / 10 : ℚ) * (105 / 110) - 1) * 100)]) := by
  rw [total_returns_c1]
  norm_num

/-! ## C2 — invalid calendar dates -/

/-- The position-construction phase with the invalid sell date clamped to
`Date::MIN`. -/
theorem buildReturns_badSell :
    buildReturns usdProvider 1675382400 pfBadSell =
      some (.ok [(19389, [⟨100, 100, 1⟩]), (19390, [⟨100, 110, 1⟩]),
                 (19391, [⟨110, 100, 1⟩])]) := by
  norm_num [buildReturns, find_dates, rangesLoop, get_range, fromCalendarDate,
    daysInMonth, daysFromCivil, isLeap, fetchLoop, usdProvider, pfBadSell,
    scenarioQuotes, dateOf, insertDate, equitiesLoop, processEquity,
    quotesFold, gapStep, fillGaps, insertPos, naiveDateMin, dateMinDays,
    TransactionDate.match_month, Month.num, List.findIdx?, List.flatMap]

/-- **C2, counterexample.**  A sell transaction dated 2023-02-31 is an
invalid calendar date (``Date::from_calendar_date`` rejects it), yet
`total_returns` does **not** return the `ComponentRange` error: the sell
date is clamped to `Date::MIN` by `unwrap_or` and the computation completes
with an `Ok` series. -/
theorem c2_counterexample :
    fromCalendarDate 2023 Month.February 31 = .error ()
    ∧ total_returns usdProvider 1675382400 pfBadSell =
        some (.ok [("2023-02-01", 0), ("2023-02-02", 10), ("2023-02-03", 0)])
    ∧ total_returns usdProvider 1675382400 pfBadSell ≠
        some (.error .ComponentRange) := by
  have hT : total_returns usdProvider 1675382400 pfBadSell =
      some (.ok [("2023-02-01", 0), ("2023-02-02", 10), ("2023-02-03", 0)]) := by
    have hC : cumulate 1 [((19389 : Int), [(⟨100, 100, 1⟩ : Position)]),
          (19390, [⟨100, 110, 1⟩]), (19391, [⟨110, 100, 1⟩])] =
        [("2023-02-01", 0), ("2023-02-02", 10), ("2023-02-03", 0)] := by
      norm_num [cumulate, aggRate, dateToString_d1, dateToString_d2, dateToString_d3]
    rw [total_returns_ok buildReturns_badSell, hC]
    simp +decide [insertStr, String.lt_iff_toList_lt, List.foldl]
  refine ⟨by decide, hT, by rw [hT]; intro hc; simp at hc⟩

/-- **C2, amended.**  If any equity's *buy* transaction carries an invalid
calendar date (after the code's month normalization, which maps a month
outside 1–12 to January), `total_returns` returns the invalid-date error
`StocksError::ComponentRange` for **every** provider — the failure happens
in `find_dates` before any fetch, so no partial output is produced.  (Sell
dates, by contrast, are clamped — see the counterexample.) -/
theorem c2_invalid_buy_date (P : EngineProvider) (now : Int) (item : Portfolio)
    (e : Equity) (he : e ∈ item.portfolio)
    (hbad : fromCalendarDate e.buy.date.year e.buy.date.match_month
      e.buy.date.day = .error ()) :
    total_returns P now item = some (.error .ComponentRange) := by
  have h1 : rangesLoop now item.portfolio = .error .ComponentRange :=
    rangesLoop_error _ e he (get_range_error_of_buy hbad)
  unfold total_returns buildReturns find_dates
  rw [h1]

/-- **C2, witness.**  The amended claim applied to the concrete portfolio
whose single equity is bought on the invalid date 2023-02-30. -/
theorem c2_invalid_buy_date_witness :
    (⟨"T", ⟨⟨2023, 2, 30⟩, 100⟩, none, 1⟩ : Equity) ∈ pfBadBuy.portfolio
    ∧ fromCalendarDate 2023 Month.February 30 = .error ()
    ∧ total_returns usdProvider 0 pfBadBuy = some (.error .ComponentRange) :=
  ⟨List.mem_cons_self _ _, by decide,
   c2_invalid_buy_date usdProvider 0 pfBadBuy _ (List.mem_cons_self _ _)
     (by decide)⟩

/-! ## C3 — the cumulative fold -/

theorem foldl_add_eq (f : Position → ℚ) :
    ∀ (l : List Position) (a : ℚ),
      l.foldl (fun acc p => acc + f p) a = a + (l.map f).sum
  | [], a => by simp
  | p :: l, a => by
    simp only [List.foldl_cons, List.map_cons, List.sum_cons]
    rw [foldl_add_eq f l (a + f p)]; ring

theorem foldl_add_div_eq (f : Position → ℚ) (c : ℚ) :
    ∀ (l : List Position) (a : ℚ),
      l.foldl (fun acc p => acc + f p / c) a = a + (l.map f).sum / c
  | [], a => by simp
  | p :: l, a => by
    simp only [List.foldl_cons, List.map_cons, List.sum_cons]
    rw [foldl_add_div_eq f c l (a + f p / c), add_div]; ring

/-- The code's fold-of-quotients aggregation equals the spec's quotient of
sums (exact arithmetic; both sides are `0` when the capital is zero). -/
theorem aggRate_eq_claimRate (ps : List Position) : aggRate ps = claimRate ps := by
  simp only [aggRate, claimRate]
  rw [foldl_add_eq (fun p => p.old_price * (p.quantity : ℚ)) ps 0,
    foldl_add_div_eq (fun p => p.price * (p.quantity : ℚ))
      (0 + (ps.map (fun p => p.old_price * (p.quantity : ℚ))).sum) ps 0]
  simp

/-- The `i`-th emitted entry of the cumulative fold started at `c`. -/
theorem cumulate_get? :
    ∀ (l : List (Int × List Position)) (c : ℚ) (i : Nat)
      (e : Int × List Position), l.get? i = some e →
      (cumulate c l).get? i =
        some (dateToString e.1,
          (c * ((l.map (fun kv => claimRate kv.2)).take (i + 1)).prod - 1) * 100)
  | [], _, i, e => by simp
  | (d, ps) :: rest, c, 0, e => fun h => by
    rw [List.get?_cons_zero] at h
    injection h with h; subst h
    simp [cumulate, aggRate_eq_claimRate]
  | (d, ps) :: rest, c, i + 1, e => fun h => by
    rw [List.get?_cons_succ] at h
    have ih := cumulate_get? rest (c * aggRate ps) i e h
    simp only [cumulate, List.get?_cons_succ]
    rw [ih]
    simp only [List.map_cons, List.take_succ_cons, List.prod_cons,
      aggRate_eq_claimRate, mul_assoc]

/-- Keys of `insertPos`'s result come from the inserted date or the old
map. -/
theorem keys_insertPos :
    ∀ (l : List (Int × List Position)) (d : Int) (p : Position)
      (x : Int × List Position), x ∈ insertPos l d p →
      x.1 = d ∨ ∃ y ∈ l, x.1 = y.1
  | [], d, p, x => fun hx => by
    simp only [insertPos, List.mem_singleton] at hx; subst hx; exact Or.inl rfl
  | (k, ps) :: rest, d, p, x => fun hx => by
    simp only [insertPos] at hx
    split at hx
    · rcases List.mem_cons.mp hx with rfl | hx'
      · exact Or.inl rfl
      · exact Or.inr ⟨x, hx', rfl⟩
    · split at hx
      · rcases List.mem_cons.mp hx with rfl | hx'
        · exact Or.inr ⟨(k, ps), List.mem_cons_self _ _, rfl⟩
        · exact Or.inr ⟨x, List.mem_cons_of_mem _ hx', rfl⟩
      · rcases List.mem_cons.mp hx with rfl | hx'
        · exact Or.inr ⟨(k, ps), List.mem_cons_self _ _, rfl⟩
        · rcases keys_insertPos rest d p x hx' with h | ⟨y, hy, hxy⟩
          · exact Or.inl h
          · exact Or.inr ⟨y, List.mem_cons_of_mem _ hy, hxy⟩

/-- `insertPos` preserves strict ascending key order. -/
theorem insertPos_pairwise :
    ∀ (l : List (Int × List Position)) (d : Int) (p : Position),
      l.Pairwise (fun a b => a.1 < b.1) →
      (insertPos l d p).Pairwise (fun a b => a.1 < b.1)
  | [], d, p => fun _ => by simp [insertPos]
  | (k, ps) :: rest, d, p => fun h => by
    rcases List.pairwise_cons.mp h with ⟨hk, hrest⟩
    simp only [insertPos]
    split
    · refine List.pairwise_cons.mpr ⟨?_, h⟩
      intro y hy
      rcases List.mem_cons.mp hy with rfl | hy'
      · assumption
      · exact lt_trans (by assumption) (hk y hy')
    · split
      · exact List.pairwise_cons.mpr ⟨hk, hrest⟩
      · refine List.pairwise_cons.mpr ⟨?_, insertPos_pairwise rest d p hrest⟩
        intro x hx
        rcases keys_insertPos rest d p x hx with hxd | ⟨y, hy, hxy⟩
        · rw [hxd]; omega
        · rw [hxy]; exact hk y hy

theorem fillGaps_pairwise (every : List Int) (p : Position) :
    ∀ (count j : Nat) (ret ret' : List (Int × List Position)),
      fillGaps every p j count ret = some ret' →
      ret.Pairwise (fun a b => a.1 < b.1) →
      ret'.Pairwise (fun a b => a.1 < b.1)
  | 0, j, ret, ret' => fun h hs => by
    simp only [fillGaps] at h; injection h with h; subst h; exact hs
  | count + 1, j, ret, ret' => fun h hs => by
    simp only [fillGaps] at h
    split at h
    · cases h
    · exact fillGaps_pairwise every p count (j + 1) _ ret' h
        (insertPos_pairwise _ _ _ hs)

theorem gapStep_pairwise {every : List Int} {quantity : Nat} {old : ℚ}
    {m : Quote} {i : Nat} {prev : Int} {ret ret' : List (Int × List Position)}
    (h : gapStep every quantity old m i prev ret = some ret')
    (hs : ret.Pairwise (fun a b => a.1 < b.1)) :
    ret'.Pairwise (fun a b => a.1 < b.1) := by
  unfold gapStep at h
  split at h
  · split at h
    · exact fillGaps_pairwise _ _ _ _ _ _ h hs
    · cases h
  · injection h with h; subst h; exact hs

theorem quotesFold_pairwise (every : List Int) (len quantity : Nat)
    (sca eca : ℚ) (sellUSD : Option ℚ) :
    ∀ (qs : List Quote) (i : Nat) (old : ℚ) (prev : Int)
      (ret ret' : List (Int × List Position)),
      quotesFold every len quantity sca eca sellUSD i old prev qs ret = some ret' →
      ret.Pairwise (fun a b => a.1 < b.1) →
      ret'.Pairwise (fun a b => a.1 < b.1)
  | [], i, old, prev, ret, ret' => fun h hs => by
    simp only [quotesFold] at h; injection h with h; subst h; exact hs
  | m :: rest, i, old, prev, ret, ret' => fun h hs => by
    simp only [quotesFold] at h
    split at h
    · cases h
    · exact quotesFold_pairwise every len quantity sca eca sellUSD rest
        (i + 1) _ _ _ ret' h
        (insertPos_pairwise _ _ _ (gapStep_pairwise (by assumption) hs))

theorem processEquity_pairwise {P : EngineProvider} {now : Int}
    {every : List Int} {ret ret' : List (Int × List Position)} {n : Equity}
    (h : processEquity P now every ret n = some (.ok ret'))
    (hs : ret.Pairwise (fun a b => a.1 < b.1)) :
    ret'.Pairwise (fun a b => a.1 < b.1) := by
  unfold processEquity at h
  repeat' split at h
  all_goals try cases h
  dsimp only at h
  split at h
  · cases h
  · injection h with h; injection h with h; subst h
    exact quotesFold_pairwise _ _ _ _ _ _ _ _ _ _ _ _ (by assumption) hs

theorem equitiesLoop_pairwise {P : EngineProvider} {now : Int}
    {every : List Int} :
    ∀ (l : List Equity) (ret ret' : List (Int × List Position)),
      equitiesLoop P now every l ret = some (.ok ret') →
      ret.Pairwise (fun a b => a.1 < b.1) →
      ret'.Pairwise (fun a b => a.1 < b.1)
  | [], ret, ret' => fun h hs => by
    simp only [equitiesLoop] at h
    injection h with h; injection h with h; subst h; exact hs
  | n :: rest, ret, ret' => fun h hs => by
    simp only [equitiesLoop] at h
    split at h
    · cases h
    · cases h
    · exact equitiesLoop_pairwise rest _ ret' h
        (processEquity_pairwise (by assumption) hs)

/-- The per-day map built by a successful run has strictly ascending
dates. -/
theorem buildReturns_pairwise {P : EngineProvider} {now : Int}
    {item : Portfolio} {entries : List (Int × List Position)}
    (h : buildReturns P now item = some (.ok entries)) :
    entries.Pairwise (fun a b => a.1 < b.1) := by
  unfold buildReturns at h
  split at h
  · cases h
  · cases h
  · exact equitiesLoop_pairwise _ _ _ h List.Pairwise.nil

/-- **C3.**  For every portfolio whose position-construction phase succeeds
with per-day map `entries` (strictly ascending by date — second conjunct),
the emitted series is the cumulative fold of the per-date aggregate daily
rates `claimRate` (sum of `price × quantity` divided by the sum of
`old_price × quantity`): the `i`-th entry (ascending date order) has value
`(Π(r₁..rᵢ₊₁) − 1) × 100`; in particular the first date's value is
`(r₁ − 1) × 100`, that day's own rate, not zero.  The returned map is this
series collected by date string. -/
theorem c3_cumulative_fold (P : EngineProvider) (now : Int) (item : Portfolio)
    (entries : List (Int × List Position))
    (h : buildReturns P now item = some (.ok entries)) :
    total_returns P now item = some (.ok ((cumulate 1 entries).foldl insertStr []))
    ∧ entries.Pairwise (fun a b => a.1 < b.1)
    ∧ ∀ (i : Nat) (e : Int × List Position), entries.get? i = some e →
        (cumulate 1 entries).get? i =
          some (dateToString e.1,
            (((entries.map (fun kv => claimRate kv.2)).take (i + 1)).prod - 1) * 100) := by
  refine ⟨total_returns_ok h, buildReturns_pairwise h, fun i e he => ?_⟩
  have hc := cumulate_get? entries 1 i e he
  rwa [one_mul] at hc

/-- **C3, witness.**  The worked scenario: the third entry of the fold is
the product of the first three rates, minus one, times 100. -/
theorem c3_cumulative_fold_witness :
    buildReturns usdProvider 1675382400 pfC1 =
      some (.ok [((19389 : Int), [(⟨100, 100, 1⟩ : Position)]),
                 (19390, [⟨100, 110, 1⟩]), (19391, [⟨110, 105, 1⟩])])
    ∧ (cumulate 1 [((19389 : Int), [(⟨100, 100, 1⟩ : Position)]),
          (19390, [⟨100, 110, 1⟩]), (19391, [⟨110, 105, 1⟩])]).get? 2 =
        some ("2023-02-03",
          ((([((19389 : Int), [(⟨100, 100, 1⟩ : Position)]),
              (19390, [⟨100, 110, 1⟩]), (19391, [⟨110, 105, 1⟩])].map
              (fun kv => claimRate kv.2)).take 3).prod - 1) * 100) := by
  refine ⟨buildReturns_c1, ?_⟩
  have h := (c3_cumulative_fold _ _ _ _ buildReturns_c1).2.2 2
    (19391, [⟨110, 105, 1⟩]) rfl
  rwa [dateToString_d3] at h

/-! ## C4 — gap backfill -/

theorem gapStep_zero {every : List Int} {quantity : Nat} {old : ℚ} {m : Quote}
    {prev : Int} {ret : List (Int × List Position)} :
    gapStep every quantity old m 0 prev ret = some ret := rfl

theorem gapStep_pos {every : List Int} {quantity : Nat} {old : ℚ} {m : Quote}
    {i : Nat} {prev : Int} {ret out : List (Int × List Position)}
    (pIdx cIdx : Nat)
    (hi : 0 < i)
    (h1 : every.findIdx? (fun x => x == prev) = some pIdx)
    (h2 : every.findIdx? (fun x => x == dateOf m.timestamp) = some cIdx)
    (hf : fillGaps every
        ⟨old * m.close / m.adjclose, old * m.close / m.adjclose, quantity⟩
        (pIdx + 1) (cIdx - (pIdx + 1)) ret = some out) :
    gapStep every quantity old m i prev ret = some out := by
  unfold gapStep
  rw [if_pos hi, h1, h2]
  exact hf

theorem quotesFold_step {every : List Int} {len quantity : Nat} {sca eca : ℚ}
    {sellUSD : Option ℚ} {i : Nat} {old : ℚ} {prev d : Int} {m : Quote}
    {rest : List Quote} {ret ret1 ret2 : List (Int × List Position)}
    {p : Position} {old' : ℚ}
    (hg : gapStep every quantity old m i prev ret = some ret1)
    (hd : dateOf m.timestamp = d)
    (hp : (if i + 1 = len then
            Position.mk (old * m.close / m.adjclose)
              (match sellUSD with
               | some sp => sp * m.close / m.adjclose
               | none => m.adjclose) quantity
          else if i = 0 then
            ⟨old * m.close / m.adjclose, m.close * sca * m.close / m.adjclose,
             quantity⟩
          else ⟨old, m.adjclose, quantity⟩) = p)
    (ho : (if i + 2 = len then m.close * eca else m.adjclose) = old')
    (hins : insertPos ret1 d p = ret2) :
    quotesFold every len quantity sca eca sellUSD i old prev (m :: rest) ret =
      quotesFold every len quantity sca eca sellUSD (i + 1) old' d rest ret2 := by
  simp only [quotesFold, hg]
  rw [hd, hp, ho, hins]

theorem processEquity_eval {P : EngineProvider} {now : Int} {every : List Int}
    {ret ret' : List (Int × List Position)} {n : Equity} {start end_ : Int}
    {sca eca : ℚ} {qs : List Quote}
    (hr : get_range n now = .ok (start, end_))
    (hs : P.check_currency n.ticker start = some (.ok sca))
    (he : P.check_currency n.ticker end_ = some (.ok eca))
    (hq : P.get_quotes n.ticker start end_ = some (.ok qs))
    (hf : quotesFold every qs.length n.quantity sca eca
        (n.sell.map (fun s => s.price * eca)) 0 (n.buy.price * sca)
        naiveDateMin qs ret = some ret') :
    processEquity P now every ret n = some (.ok ret') := by
  unfold processEquity
  rw [hr]; dsimp only
  rw [hs]; dsimp only
  rw [he]; dsimp only
  rw [hq]; dsimp only
  rw [hf]

theorem equitiesLoop_nil {P : EngineProvider} {now : Int} {every : List Int}
    {ret : List (Int × List Position)} :
    equitiesLoop P now every [] ret = some (.ok ret) := rfl

theorem equitiesLoop_cons {P : EngineProvider} {now : Int} {every : List Int}
    {n : Equity} {rest : List Equity}
    {ret ret1 : List (Int × List Position)}
    {out : Option (Except StocksError (List (Int × List Position)))}
    (h1 : processEquity P now every ret n = some (.ok ret1))
    (h2 : equitiesLoop P now every rest ret1 = out) :
    equitiesLoop P now every (n :: rest) ret = out := by
  simp only [equitiesLoop, h1]
  exact h2

theorem buildReturns_eval {P : EngineProvider} {now : Int} {item : Portfolio}
    {every : List Int} {entries : List (Int × List Position)}
    (hd : find_dates P now item = some (.ok every))
    (hl : equitiesLoop P now every item.portfolio [] = some (.ok entries)) :
    buildReturns P now item = some (.ok entries) := by
  unfold buildReturns
  rw [hd]
  exact hl

theorem insertStr_append :
    ∀ (acc : List (String × ℚ)) (kv : String × ℚ),
      (∀ x ∈ acc, x.1 < kv.1) → insertStr acc kv = acc ++ [kv]
  | [], kv, _ => rfl
  | (k, v) :: rest, kv, h => by
    have hk : k < kv.1 := h (k, v) (List.mem_cons_self _ _)
    simp only [insertStr]
    rw [if_neg (by exact fun hlt => absurd hk (lt_asymm hlt)),
      if_neg (by rintro rfl; exact lt_irrefl _ hk)]
    rw [insertStr_append rest kv (fun x hx => h x (List.mem_cons_of_mem _ hx))]
    rfl

theorem foldl_insertStr_sorted :
    ∀ (l acc : List (String × ℚ)),
      (∀ x ∈ acc, ∀ y ∈ l, x.1 < y.1) →
      l.Pairwise (fun a b => a.1 < b.1) →
      l.foldl insertStr acc = acc ++ l
  | [], acc, _, _ => by simp
  | kv :: rest, acc, hcross, hpw => by
    rcases List.pairwise_cons.mp hpw with ⟨hkv, hrest⟩
    simp only [List.foldl_cons]
    rw [insertStr_append acc kv
      (fun x hx => hcross x hx kv (List.mem_cons_self _ _))]
    rw [foldl_insertStr_sorted rest (acc ++ [kv]) ?cross hrest]
    · simp
    case cross =>
      intro x hx y hy
      rcases List.mem_append.mp hx with hx' | hx'
      · exact hcross x hx' y (List.mem_cons_of_mem _ hy)
      · rw [List.mem_singleton.mp hx']; exact hkv y hy

theorem cumulate_keys :
    ∀ (l : List (Int × List Position)) (c : ℚ),
      (cumulate c l).map Prod.fst = l.map (fun kv => dateToString kv.1)
  | [], _ => rfl
  | (d, ps) :: rest, c => by
    simp only [cumulate, List.map_cons]
    rw [cumulate_keys rest]

theorem strLt12 : ("2023-02-01" : String) < "2023-02-02" := by
  rw [String.lt_iff_toList_lt]; decide

theorem strLt13 : ("2023-02-01" : String) < "2023-02-03" := by
  rw [String.lt_iff_toList_lt]; decide

theorem strLt23 : ("2023-02-02" : String) < "2023-02-03" := by
  rw [String.lt_iff_toList_lt]; decide

/-- The per-day map of the gap scenario, for arbitrary buy prices, quote
prices and quantities: on 2023-02-02 (day 19390) equity `A` contributes the
synthesized flat position and `B` its real one. -/
theorem gapBuildReturns (buyA buyB ca1 aa1 ca3 aa3 cb1 ab1 cb2 ab2 cb3 ab3 : ℚ)
    (qa qb : Nat) :
    buildReturns (gapProvider ca1 aa1 ca3 aa3 cb1 ab1 cb2 ab2 cb3 ab3)
      1675382400 (gapPortfolio buyA buyB qa qb) =
    some (.ok [(19389, [⟨buyA * 1 * ca1 / aa1, ca1 * 1 * ca1 / aa1, qa⟩,
                 ⟨buyB * 1 * cb1 / ab1, cb1 * 1 * cb1 / ab1, qb⟩]),
       (19390, [⟨ca1 * 1 * ca3 / aa3, ca1 * 1 * ca3 / aa3, qa⟩,
                ⟨ab1, ab2, qb⟩]),
       (19391, [⟨ca1 * 1 * ca3 / aa3, aa3, qa⟩,
                ⟨cb2 * 1 * cb3 / ab3, ab3, qb⟩])]) := by
  have hFD : find_dates (gapProvider ca1 aa1 ca3 aa3 cb1 ab1 cb2 ab2 cb3 ab3)
      1675382400 (gapPortfolio buyA buyB qa qb) =
      some (.ok [19389, 19390, 19391]) := by
    simp only [find_dates, rangesLoop, get_range, fromCalendarDate, daysInMonth,
      daysFromCivil, isLeap, fetchLoop, gapProvider, gapPortfolio, gapQuotesA,
      gapQuotesB, dateOf, insertDate, TransactionDate.match_month, Month.num,
      List.flatMap, eq_false (show ¬ ("B" = "A") by decide),
      eq_true (show ("A" = "A") from rfl)]
    norm_num [insertDate]
  have hQFA : quotesFold [19389, 19390, 19391] 2 qa 1 1 none 0 (buyA * 1)
      naiveDateMin
      [⟨1675209600, 0, 0, 0, 0, ca1, aa1⟩, ⟨1675382400, 0, 0, 0, 0, ca3, aa3⟩]
      [] =
      some [(19389, [⟨buyA * 1 * ca1 / aa1, ca1 * 1 * ca1 / aa1, qa⟩]),
            (19390, [⟨ca1 * 1 * ca3 / aa3, ca1 * 1 * ca3 / aa3, qa⟩]),
            (19391, [⟨ca1 * 1 * ca3 / aa3, aa3, qa⟩])] := by
    rw [quotesFold_step gapStep_zero
      (show dateOf (⟨1675209600, 0, 0, 0, 0, ca1, aa1⟩ : Quote).timestamp = 19389
        by norm_num [dateOf])
      (show _ = (⟨buyA * 1 * ca1 / aa1, ca1 * 1 * ca1 / aa1, qa⟩ : Position) by
        norm_num)
      (show _ = ca1 * 1 by norm_num)
      (show insertPos [] 19389 ⟨buyA * 1 * ca1 / aa1, ca1 * 1 * ca1 / aa1, qa⟩ =
        [(19389, [⟨buyA * 1 * ca1 / aa1, ca1 * 1 * ca1 / aa1, qa⟩])] from rfl)]
    rw [quotesFold_step
      (gapStep_pos 0 2 (by norm_num) (by norm_num [List.findIdx?])
        (by norm_num [List.findIdx?, dateOf])
        (show fillGaps [19389, 19390, 19391]
            ⟨ca1 * 1 * (⟨1675382400, 0, 0, 0, 0, ca3, aa3⟩ : Quote).close /
              (⟨1675382400, 0, 0, 0, 0, ca3, aa3⟩ : Quote).adjclose,
             ca1 * 1 * (⟨1675382400, 0, 0, 0, 0, ca3, aa3⟩ : Quote).close /
              (⟨1675382400, 0, 0, 0, 0, ca3, aa3⟩ : Quote).adjclose, qa⟩
            (0 + 1) (2 - (0 + 1))
            [(19389, [⟨buyA * 1 * ca1 / aa1, ca1 * 1 * ca1 / aa1, qa⟩])] =
          some [(19389, [⟨buyA * 1 * ca1 / aa1, ca1 * 1 * ca1 / aa1, qa⟩]),
                (19390, [⟨ca1 * 1 * ca3 / aa3, ca1 * 1 * ca3 / aa3, qa⟩])] by
          norm_num [fillGaps, insertPos]))
      (show dateOf (⟨1675382400, 0, 0, 0, 0, ca3, aa3⟩ : Quote).timestamp = 19391
        by norm_num [dateOf])
      (show _ = (⟨ca1 * 1 * ca3 / aa3, aa3, qa⟩ : Position) by norm_num)
      (show _ = aa3 by norm_num)
      (show insertPos
          [(19389, [⟨buyA * 1 * ca1 / aa1, ca1 * 1 * ca1 / aa1, qa⟩]),
           (19390, [⟨ca1 * 1 * ca3 / aa3, ca1 * 1 * ca3 / aa3, qa⟩])] 19391
          ⟨ca1 * 1 * ca3 / aa3, aa3, qa⟩ =
        [(19389, [⟨buyA * 1 * ca1 / aa1, ca1 * 1 * ca1 / aa1, qa⟩]),
         (19390, [⟨ca1 * 1 * ca3 / aa3, ca1 * 1 * ca3 / aa3, qa⟩]),
         (19391, [⟨ca1 * 1 * ca3 / aa3, aa3, qa⟩])] from rfl)]
    rfl
  have hQFB : quotesFold [19389, 19390, 19391] 3 qb 1 1 none 0 (buyB * 1)
      naiveDateMin
      [⟨1675209600, 0, 0, 0, 0, cb1, ab1⟩, ⟨1675296000, 0, 0, 0, 0, cb2, ab2⟩,
       ⟨1675382400, 0, 0, 0, 0, cb3, ab3⟩]
      [(19389, [⟨buyA * 1 * ca1 / aa1, ca1 * 1 * ca1 / aa1, qa⟩]),
       (19390, [⟨ca1 * 1 * ca3 / aa3, ca1 * 1 * ca3 / aa3, qa⟩]),
       (19391, [⟨ca1 * 1 * ca3 / aa3, aa3, qa⟩])] =
      some [(19389, [⟨buyA * 1 * ca1 / aa1, ca1 * 1 * ca1 / aa1, qa⟩,
                     ⟨buyB * 1 * cb1 / ab1, cb1 * 1 * cb1 / ab1, qb⟩]),
            (19390, [⟨ca1 * 1 * ca3 / aa3, ca1 * 1 * ca3 / aa3, qa⟩,
                     ⟨ab1, ab2, qb⟩]),
            (19391, [⟨ca1 * 1 * ca3 / aa3, aa3, qa⟩,
                     ⟨cb2 * 1 * cb3 / ab3, ab3, qb⟩])] := by
    rw [quotesFold_step gapStep_zero
      (show dateOf (⟨1675209600, 0, 0, 0, 0, cb1, ab1⟩ : Quote).timestamp = 19389
        by norm_num [dateOf])
      (show _ = (⟨buyB * 1 * cb1 / ab1, cb1 * 1 * cb1 / ab1, qb⟩ : Position) by
        norm_num)
      (show _ = ab1 by norm_num)
      (show insertPos
          [(19389, [⟨buyA * 1 * ca1 / aa1, ca1 * 1 * ca1 / aa1, qa⟩]),
           (19390, [⟨ca1 * 1 * ca3 / aa3, ca1 * 1 * ca3 / aa3, qa⟩]),
           (19391, [⟨ca1 * 1 * ca3 / aa3, aa3, qa⟩])] 19389
          ⟨buyB * 1 * cb1 / ab1, cb1 * 1 * cb1 / ab1, qb⟩ =
        [(19389, [⟨buyA * 1 * ca1 / aa1, ca1 * 1 * ca1 / aa1, qa⟩,
                  ⟨buyB * 1 * cb1 / ab1, cb1 * 1 * cb1 / ab1, qb⟩]),
         (19390, [⟨ca1 * 1 * ca3 / aa3, ca1 * 1 * ca3 / aa3, qa⟩]),
         (19391, [⟨ca1 * 1 * ca3 / aa3, aa3, qa⟩])] from rfl)]
    rw [quotesFold_step
      (gapStep_pos 0 1 (by norm_num) (by norm_num [List.findIdx?])
        (by norm_num [List.findIdx?, dateOf]) rfl)
      (show dateOf (⟨1675296000, 0, 0, 0, 0, cb2, ab2⟩ : Quote).timestamp = 19390
        by norm_num [dateOf])
      (show _ = (⟨ab1, ab2, qb⟩ : Position) by norm_num)
      (show _ = cb2 * 1 by norm_num)
      (show insertPos
          [(19389, [⟨buyA * 1 * ca1 / aa1, ca1 * 1 * ca1 / aa1, qa⟩,
                    ⟨buyB * 1 * cb1 / ab1, cb1 * 1 * cb1 / ab1, qb⟩]),
           (19390, [⟨ca1 * 1 * ca3 / aa3, ca1 * 1 * ca3 / aa3, qa⟩]),
           (19391, [⟨ca1 * 1 * ca3 / aa3, aa3, qa⟩])] 19390
          ⟨ab1, ab2, qb⟩ =
        [(19389, [⟨buyA * 1 * ca1 / aa1, ca1 * 1 * ca1 / aa1, qa⟩,
                  ⟨buyB * 1 * cb1 / ab1, cb1 * 1 * cb1 / ab1, qb⟩]),
         (19390, [⟨ca1 * 1 * ca3 / aa3, ca1 * 1 * ca3 / aa3, qa⟩,
                  ⟨ab1, ab2, qb⟩]),
         (19391, [⟨ca1 * 1 * ca3 / aa3, aa3, qa⟩])] from rfl)]
    rw [quotesFold_step
      (gapStep_pos 1 2 (by norm_num) (by norm_num [List.findIdx?, dateOf])
        (by norm_num [List.findIdx?, dateOf]) rfl)
      (show dateOf (⟨1675382400, 0, 0, 0, 0, cb3, ab3⟩ : Quote).timestamp = 19391
        by norm_num [dateOf])
      (show _ = (⟨cb2 * 1 * cb3 / ab3, ab3, qb⟩ : Position) by norm_num)
      (show _ = ab3 by norm_num)
      (show insertPos
          [(19389, [⟨buyA * 1 * ca1 / aa1, ca1 * 1 * ca1 / aa1, qa⟩,
                    ⟨buyB * 1 * cb1 / ab1, cb1 * 1 * cb1 / ab1, qb⟩]),
           (19390, [⟨ca1 * 1 * ca3 / aa3, ca1 * 1 * ca3 / aa3, qa⟩,
                    ⟨ab1, ab2, qb⟩]),
           (19391, [⟨ca1 * 1 * ca3 / aa3, aa3, qa⟩])] 19391
          ⟨cb2 * 1 * cb3 / ab3, ab3, qb⟩ =
        [(19389, [⟨buyA * 1 * ca1 / aa1, ca1 * 1 * ca1 / aa1, qa⟩,
                  ⟨buyB * 1 * cb1 / ab1, cb1 * 1 * cb1 / ab1, qb⟩]),
         (19390, [⟨ca1 * 1 * ca3 / aa3, ca1 * 1 * ca3 / aa3, qa⟩,
                  ⟨ab1, ab2, qb⟩]),
         (19391, [⟨ca1 * 1 * ca3 / aa3, aa3, qa⟩,
                  ⟨cb2 * 1 * cb3 / ab3, ab3, qb⟩])] from rfl)]
    rfl
  have hPA : processEquity
      (gapProvider ca1 aa1 ca3 aa3 cb1 ab1 cb2 ab2 cb3 ab3) 1675382400
      [19389, 19390, 19391] [] ⟨"A", ⟨⟨2023, 2, 1⟩, buyA⟩, none, qa⟩ =
      some (.ok [(19389, [⟨buyA * 1 * ca1 / aa1, ca1 * 1 * ca1 / aa1, qa⟩]),
                 (19390, [⟨ca1 * 1 * ca3 / aa3, ca1 * 1 * ca3 / aa3, qa⟩]),
                 (19391, [⟨ca1 * 1 * ca3 / aa3, aa3, qa⟩])]) := by
    exact processEquity_eval rfl rfl rfl rfl hQFA
  have hPB : processEquity
      (gapProvider ca1 aa1 ca3 aa3 cb1 ab1 cb2 ab2 cb3 ab3) 1675382400
      [19389, 19390, 19391]
      [(19389, [⟨buyA * 1 * ca1 / aa1, ca1 * 1 * ca1 / aa1, qa⟩]),
       (19390, [⟨ca1 * 1 * ca3 / aa3, ca1 * 1 * ca3 / aa3, qa⟩]),
       (19391, [⟨ca1 * 1 * ca3 / aa3, aa3, qa⟩])]
      ⟨"B", ⟨⟨2023, 2, 1⟩, buyB⟩, none, qb⟩ =
      some (.ok [(19389, [⟨buyA * 1 * ca1 / aa1, ca1 * 1 * ca1 / aa1, qa⟩,
                          ⟨buyB * 1 * cb1 / ab1, cb1 * 1 * cb1 / ab1, qb⟩]),
                 (19390, [⟨ca1 * 1 * ca3 / aa3, ca1 * 1 * ca3 / aa3, qa⟩,
                          ⟨ab1, ab2, qb⟩]),
                 (19391, [⟨ca1 * 1 * ca3 / aa3, aa3, qa⟩,
                          ⟨cb2 * 1 * cb3 / ab3, ab3, qb⟩])]) := by
    exact processEquity_eval rfl rfl rfl rfl hQFB
  have hBR : buildReturns
      (gapProvider ca1 aa1 ca3 aa3 cb1 ab1 cb2 ab2 cb3 ab3) 1675382400
      (gapPortfolio buyA buyB qa qb) =
      some (.ok [(19389, [⟨buyA * 1 * ca1 / aa1, ca1 * 1 * ca1 / aa1, qa⟩,
                          ⟨buyB * 1 * cb1 / ab1, cb1 * 1 * cb1 / ab1, qb⟩]),
                 (19390, [⟨ca1 * 1 * ca3 / aa3, ca1 * 1 * ca3 / aa3, qa⟩,
                          ⟨ab1, ab2, qb⟩]),
                 (19391, [⟨ca1 * 1 * ca3 / aa3, aa3, qa⟩,
                          ⟨cb2 * 1 * cb3 / ab3, ab3, qb⟩])]) :=
    buildReturns_eval hFD (equitiesLoop_cons hPA (equitiesLoop_cons hPB
      equitiesLoop_nil))
  exact hBR

/-- **C4.**  Gap backfill: equity `A` has quotes only on 2023-02-01 and
2023-02-03 while equity `B` has quotes on all three days (arbitrary prices
and quantities).  The returned series has entries for exactly the three
dates, and on the middle date `A` contributes a synthesized position whose
`old_price` equals its `price` — the carried-forward value rescaled by the
next quote's close/adjclose ratio (`ca1 · ca3 / aa3`) — so `A` neither adds
gain/loss nor drops out of the capital base on that date. -/
theorem c4_gap_backfill (buyA buyB ca1 aa1 ca3 aa3 cb1 ab1 cb2 ab2 cb3 ab3 : ℚ)
    (qa qb : Nat) :
    ∃ out : List (String × ℚ),
      total_returns (gapProvider ca1 aa1 ca3 aa3 cb1 ab1 cb2 ab2 cb3 ab3)
        1675382400 (gapPortfolio buyA buyB qa qb) = some (.ok out)
      ∧ out.map Prod.fst = ["2023-02-01", "2023-02-02", "2023-02-03"]
      ∧ ∃ ps p,
          positionsAt (gapProvider ca1 aa1 ca3 aa3 cb1 ab1 cb2 ab2 cb3 ab3)
            1675382400 (gapPortfolio buyA buyB qa qb) 19390 = some ps
          ∧ p ∈ ps ∧ p.quantity = qa ∧ p.old_price = p.price
          ∧ p.old_price = ca1 * ca3 / aa3 := by
  have hBR := gapBuildReturns buyA buyB ca1 aa1 ca3 aa3 cb1 ab1 cb2 ab2 cb3 ab3 qa qb
  have hkeys : (cumulate 1
      [(19389, [⟨buyA * 1 * ca1 / aa1, ca1 * 1 * ca1 / aa1, qa⟩,
                ⟨buyB * 1 * cb1 / ab1, cb1 * 1 * cb1 / ab1, qb⟩]),
       (19390, [⟨ca1 * 1 * ca3 / aa3, ca1 * 1 * ca3 / aa3, qa⟩,
                ⟨ab1, ab2, qb⟩]),
       (19391, [⟨ca1 * 1 * ca3 / aa3, aa3, qa⟩,
                ⟨cb2 * 1 * cb3 / ab3, ab3, qb⟩])]).map Prod.fst =
      ["2023-02-01", "2023-02-02", "2023-02-03"] := by
    rw [cumulate_keys]
    simp only [List.map_cons, List.map_nil]
    rw [dateToString_d1, dateToString_d2, dateToString_d3]
  have hpwS : List.Pairwise (fun a b : String => a < b)
      ["2023-02-01", "2023-02-02", "2023-02-03"] := by
    refine List.pairwise_cons.mpr ⟨?_, List.pairwise_cons.mpr ⟨?_, ?_⟩⟩
    · intro y hy
      rcases List.mem_cons.mp hy with rfl | hy'
      · exact strLt12
      · rw [List.mem_singleton.mp hy']; exact strLt13
    · intro y hy
      rw [List.mem_singleton.mp hy]; exact strLt23
    · exact List.pairwise_singleton _ _
  have hpw : (cumulate 1
      [(19389, [⟨buyA * 1 * ca1 / aa1, ca1 * 1 * ca1 / aa1, qa⟩,
                ⟨buyB * 1 * cb1 / ab1, cb1 * 1 * cb1 / ab1, qb⟩]),
       (19390, [⟨ca1 * 1 * ca3 / aa3, ca1 * 1 * ca3 / aa3, qa⟩,
                ⟨ab1, ab2, qb⟩]),
       (19391, [⟨ca1 * 1 * ca3 / aa3, aa3, qa⟩,
                ⟨cb2 * 1 * cb3 / ab3, ab3, qb⟩])]).Pairwise
      (fun a b => a.1 < b.1) := by
    have h1 : List.Pairwise (fun a b : String => a < b)
        ((cumulate 1
          [(19389, [⟨buyA * 1 * ca1 / aa1, ca1 * 1 * ca1 / aa1, qa⟩,
                    ⟨buyB * 1 * cb1 / ab1, cb1 * 1 * cb1 / ab1, qb⟩]),
           (19390, [⟨ca1 * 1 * ca3 / aa3, ca1 * 1 * ca3 / aa3, qa⟩,
                    ⟨ab1, ab2, qb⟩]),
           (19391, [⟨ca1 * 1 * ca3 / aa3, aa3, qa⟩,
                    ⟨cb2 * 1 * cb3 / ab3, ab3, qb⟩])]).map Prod.fst) := by
      rw [hkeys]; exact hpwS
    exact List.pairwise_map.mp h1
  have hfold := foldl_insertStr_sorted (cumulate 1
      [(19389, [⟨buyA * 1 * ca1 / aa1, ca1 * 1 * ca1 / aa1, qa⟩,
                ⟨buyB * 1 * cb1 / ab1, cb1 * 1 * cb1 / ab1, qb⟩]),
       (19390, [⟨ca1 * 1 * ca3 / aa3, ca1 * 1 * ca3 / aa3, qa⟩,
                ⟨ab1, ab2, qb⟩]),
       (19391, [⟨ca1 * 1 * ca3 / aa3, aa3, qa⟩,
                ⟨cb2 * 1 * cb3 / ab3, ab3, qb⟩])]) []
      (by intro x hx; cases hx) hpw
  rw [List.nil_append] at hfold
  refine ⟨_, by rw [total_returns_ok hBR, hfold], hkeys,
    [⟨ca1 * 1 * ca3 / aa3, ca1 * 1 * ca3 / aa3, qa⟩, ⟨ab1, ab2, qb⟩],
    ⟨ca1 * 1 * ca3 / aa3, ca1 * 1 * ca3 / aa3, qa⟩, ?_,
    List.mem_cons_self _ _, rfl, rfl, ?_⟩
  · simp only [positionsAt]
    rw [hBR]
    simp only [okEntries, Option.some_bind]
    rw [List.lookup, show ((19390 : Int) == 19389) = false from rfl]
    dsimp only
    rw [List.lookup, show ((19390 : Int) == 19390) = true from rfl]
  · show ca1 * 1 * ca3 / aa3 = ca1 * ca3 / aa3
    rw [mul_one]

end Modus

namespace Modus

theorem quotes_of_check_error {r : YResponse} {e : YahooError}
    (h : check_consistency r = some (.error e)) :
    quotes r = some (.error e) := by
  unfold quotes
  rw [h]

theorem checkBlocks_emptyDataSet :
    ∀ l : List YQuoteBlock, checkBlocks l = some (.error .EmptyDataSet) →
      ∃ b ∈ l, b.timestamp = []
  | [], h => by cases h
  | stock :: rest, h => by
    simp only [checkBlocks] at h
    split at h
    · exact ⟨stock, List.mem_cons_self _ _, List.length_eq_zero.mp (by assumption)⟩
    · split at h
      · cases h
      · split at h
        · cases h
        · split at h
          · split at h
            · cases h
            · split at h
              · cases h
              · rcases checkBlocks_emptyDataSet rest h with ⟨b, hb, hbt⟩
                exact ⟨b, List.mem_cons_of_mem _ hb, hbt⟩
          · rcases checkBlocks_emptyDataSet rest h with ⟨b, hb, hbt⟩
            exact ⟨b, List.mem_cons_of_mem _ hb, hbt⟩

/-- **C10.** For every response envelope whose chart.result array is empty,
check_consistency succeeds (its per-block loop is vacuous), after which both
quotes() and metadata() index chart.result[0] and panic (modelled as none);
the empty-data-set error is raised only for a zero-length timestamp array
inside an existing result block, never for the absence of a result block. -/
theorem c10_empty_result_block (err : Option String) :
    (check_consistency ⟨⟨[], err⟩⟩ = some (.ok ())
     ∧ quotes ⟨⟨[], err⟩⟩ = none
     ∧ metadata ⟨⟨[], err⟩⟩ = none)
    ∧ ∀ r : YResponse, check_consistency r = some (.error .EmptyDataSet) →
        ∃ b ∈ r.chart.result, b.timestamp = [] :=
  ⟨⟨rfl, rfl, rfl⟩, fun _ h => checkBlocks_emptyDataSet _ h⟩

theorem c10_empty_result_block_witness :
    check_consistency respEmptyTs = some (.error .EmptyDataSet)
    ∧ ∃ b ∈ respEmptyTs.chart.result, b.timestamp = [] :=
  ⟨rfl, (c10_empty_result_block none).2 respEmptyTs rfl⟩

end Modus
namespace Modus

/-- **C6.** For every provider response block, validation fails with the
empty-data-set error when the timestamp array has length zero, and fails with
the data-inconsistency error when any of the open, high, low, close, volume,
or (if present) adjusted-close arrays differs in length from the timestamp
array; since quotes() consults check_consistency first, no quote is produced
from an invalid block. -/
theorem c6_block_validation (b : YQuoteBlock) (err : Option String) :
    (b.timestamp = [] →
      check_consistency ⟨⟨[b], err⟩⟩ = some (.error .EmptyDataSet)
      ∧ quotes ⟨⟨[b], err⟩⟩ = some (.error .EmptyDataSet))
    ∧ (∀ ql, b.indicators.quote.get? 0 = some ql → b.timestamp ≠ [] →
      (ql.open_.length ≠ b.timestamp.length
        ∨ ql.high.length ≠ b.timestamp.length
        ∨ ql.low.length ≠ b.timestamp.length
        ∨ ql.volume.length ≠ b.timestamp.length
        ∨ ql.close.length ≠ b.timestamp.length
        ∨ (∃ adj a0, b.indicators.adjclose = some adj ∧ adj.get? 0 = some a0
            ∧ a0.adjclose.length ≠ b.timestamp.length)) →
      check_consistency ⟨⟨[b], err⟩⟩ = some (.error .DataInconsistency)
      ∧ quotes ⟨⟨[b], err⟩⟩ = some (.error .DataInconsistency)) := by
  constructor
  · intro ht
    have hc : check_consistency ⟨⟨[b], err⟩⟩ = some (.error .EmptyDataSet) := by
      simp only [check_consistency, checkBlocks, ht, List.length_nil, if_true]
    exact ⟨hc, quotes_of_check_error hc⟩
  · intro ql hql hne hmm
    have hn : b.timestamp.length ≠ 0 := fun h0 => hne (List.length_eq_zero.mp h0)
    have hc : check_consistency ⟨⟨[b], err⟩⟩ = some (.error .DataInconsistency) := by
      simp only [check_consistency, checkBlocks]
      rw [if_neg hn, hql]
      dsimp only
      by_cases h5 : ql.open_.length ≠ b.timestamp.length
          ∨ ql.high.length ≠ b.timestamp.length
          ∨ ql.low.length ≠ b.timestamp.length
          ∨ ql.volume.length ≠ b.timestamp.length
          ∨ ql.close.length ≠ b.timestamp.length
      · rw [if_pos h5]
      · rw [if_neg h5]
        rcases hmm with h | h | h | h | h | ⟨adj, a0, hadj, ha0, hlen⟩
        · exact absurd (Or.inl h) h5
        · exact absurd (Or.inr (Or.inl h)) h5
        · exact absurd (Or.inr (Or.inr (Or.inl h))) h5
        · exact absurd (Or.inr (Or.inr (Or.inr (Or.inl h)))) h5
        · exact absurd (Or.inr (Or.inr (Or.inr (Or.inr h)))) h5
        · rw [hadj]
          dsimp only
          rw [ha0]
          dsimp only
          rw [if_pos hlen]
    exact ⟨hc, quotes_of_check_error hc⟩

theorem c6_block_validation_witness :
    (([86400] : List Nat) ≠ [] ∧
      (⟨[some 1], [some 1], [some 1, some 2], [some 1], [some 1]⟩ :
        QuoteList).close.length ≠ ([86400] : List Nat).length)
    ∧ check_consistency respMismatch = some (.error .DataInconsistency)
    ∧ quotes respMismatch = some (.error .DataInconsistency)
    ∧ check_consistency respEmptyTs = some (.error .EmptyDataSet)
    ∧ quotes respEmptyTs = some (.error .EmptyDataSet) := by
  have hm := (c6_block_validation
    ⟨mdUSD, [86400], ⟨[⟨[some 1], [some 1], [some 1, some 2], [some 1],
      [some 1]⟩], none⟩⟩ none).2
    ⟨[some 1], [some 1], [some 1, some 2], [some 1], [some 1]⟩ rfl
    (by decide)
    (Or.inr (Or.inr (Or.inr (Or.inr (Or.inl (by decide))))))
  have he := (c6_block_validation
    ⟨mdUSD, [], ⟨[⟨[], [], [], [], []⟩], none⟩⟩ none).1 rfl
  exact ⟨⟨by decide, by decide⟩, hm.1, hm.2, he.1, he.2⟩

end Modus
namespace Modus

/-- **C8.** For every ticker and date, check_currency returns 1.0 whenever the
instrument's currency cannot be determined (fetch or metadata error) or is
already USD; otherwise it delegates to price_at_date, which fetches the FX
pair over the single-day range [date, date] and returns the close of the
first quote of that series, propagating a provider error (never falling back
to 1.0) when the fetch fails or the FX series yields no quotes. -/
theorem c8_fx_resolution (fetch : FetchFn) (now date : Int) (ticker : String) :
    (∀ e, fetch ticker now now = .error e →
      check_currency fetch now ticker date = some (.ok 1))
    ∧ (∀ s e, fetch ticker now now = .ok s → metadata s = some (.error e) →
      check_currency fetch now ticker date = some (.ok 1))
    ∧ (∀ s md, fetch ticker now now = .ok s → metadata s = some (.ok md) →
      md.currency = "USD" → check_currency fetch now ticker date = some (.ok 1))
    ∧ (∀ s md, fetch ticker now now = .ok s → metadata s = some (.ok md) →
      md.currency ≠ "USD" →
      check_currency fetch now ticker date = price_at_date fetch md.currency date)
    ∧ (∀ C e, fetch (C ++ "=X") date date = .error e →
      price_at_date fetch C date = some (.error e))
    ∧ (∀ C r, fetch (C ++ "=X") date date = .ok r → quotes r = some (.ok []) →
      price_at_date fetch C date = some (.error .YahooError))
    ∧ (∀ C r c qs, fetch (C ++ "=X") date date = .ok r →
      quotes r = some (.ok (c :: qs)) →
      price_at_date fetch C date = some (.ok c.close)) := by
  refine ⟨?_, ?_, ?_, ?_, ?_, ?_, ?_⟩
  · intro e h
    unfold check_currency
    rw [h]
  · intro s e h hm
    unfold check_currency
    rw [h]
    dsimp only
    rw [hm]
  · intro s md h hm hc
    unfold check_currency
    rw [h]
    dsimp only
    rw [hm]
    dsimp only
    rw [if_neg (fun hne => hne hc)]
  · intro s md h hm hc
    unfold check_currency
    rw [h]
    dsimp only
    rw [hm]
    dsimp only
    rw [if_pos hc]
  · intro C e h
    unfold price_at_date
    rw [h]
  · intro C r h hq
    unfold price_at_date
    rw [h]
    dsimp only
    rw [hq]
    rfl
  · intro C r c qs h hq
    unfold price_at_date
    rw [h]
    dsimp only
    rw [hq]
    rfl

theorem c8_fx_resolution_witness :
    fetchUSD "T" 0 0 = .ok respUSD
    ∧ metadata respUSD = some (.ok mdUSD)
    ∧ mdUSD.currency = "USD"
    ∧ check_currency fetchUSD 0 "T" 0 = some (.ok 1) :=
  ⟨rfl, rfl, rfl,
   (c8_fx_resolution fetchUSD 0 0 "T").2.2.1 respUSD mdUSD rfl rfl rfl⟩

end Modus
namespace Modus

theorem fxConvert_spec (cqs : List Quote) :
    ∀ (l out : List Quote), fxConvert cqs l = some out →
      out.length = l.length
      ∧ ∀ (i : Nat) (q : Quote), l.get? i = some q →
          ∃ f, fxFor cqs q.timestamp = some f
            ∧ out.get? i = some { q with adjclose := q.adjclose * f }
  | [], out => fun h => by
    simp only [fxConvert] at h
    injection h with h; subst h
    exact ⟨rfl, fun i q hq => by simp at hq⟩
  | q :: rest, out => fun h => by
    simp only [fxConvert] at h
    cases hfind : cqs.find? (fun x => dateOf x.timestamp == dateOf q.timestamp) with
    | some c =>
      rw [hfind] at h
      rcases Option.map_eq_some'.mp h with ⟨out', hout', rfl⟩
      rcases fxConvert_spec cqs rest out' hout' with ⟨hlen, hspec⟩
      refine ⟨by simp [hlen], fun i q2 hq2 => ?_⟩
      match i, hq2 with
      | 0, hq2 =>
        rw [List.get?_cons_zero] at hq2
        injection hq2 with hq2; subst hq2
        refine ⟨c.adjclose, ?_, rfl⟩
        unfold fxFor
        rw [hfind]
      | i + 1, hq2 =>
        rw [List.get?_cons_succ] at hq2
        rcases hspec i q2 hq2 with ⟨f, hf, hget⟩
        exact ⟨f, hf, by rw [List.get?_cons_succ]; exact hget⟩
    | none =>
      rw [hfind] at h
      cases hlast : cqs.getLast? with
      | none => rw [hlast] at h; cases h
      | some c =>
        rw [hlast] at h
        rcases Option.map_eq_some'.mp h with ⟨out', hout', rfl⟩
        rcases fxConvert_spec cqs rest out' hout' with ⟨hlen, hspec⟩
        refine ⟨by simp [hlen], fun i q2 hq2 => ?_⟩
        match i, hq2 with
        | 0, hq2 =>
          rw [List.get?_cons_zero] at hq2
          injection hq2 with hq2; subst hq2
          refine ⟨c.adjclose, ?_, rfl⟩
          unfold fxFor
          rw [hfind, hlast]
          rfl
        | i + 1, hq2 =>
          rw [List.get?_cons_succ] at hq2
          rcases hspec i q2 hq2 with ⟨f, hf, hget⟩
          exact ⟨f, hf, by rw [List.get?_cons_succ]; exact hget⟩

end Modus
namespace Modus

/-- **C5.** For every non-USD instrument, each quote returned by get_quotes
equals the fetched native quote with only adjclose replaced: it is multiplied
by the FX pair's adjclose for the same calendar date (timestamps truncated to
days), or, when no same-date FX quote exists, by the adjclose of the last FX
quote of the fetched range; timestamp, open, high, low, close and volume are
unchanged. -/
theorem c5_currency_conversion (fetch : FetchFn) (ticker : String)
    (start end_ : Int) (r rC : YResponse) (md : YMetaData)
    (nqs cqs out : List Quote)
    (hF : fetch ticker start end_ = .ok r)
    (hM : metadata r = some (.ok md))
    (hC : md.currency ≠ "USD")
    (hFX : fetch (md.currency ++ "=X") start end_ = .ok rC)
    (hQC : quotes rC = some (.ok cqs))
    (hQN : quotes r = some (.ok nqs))
    (hOut : get_quotes fetch ticker start end_ = some (.ok out)) :
    out.length = nqs.length
    ∧ ∀ (i : Nat) (q : Quote), nqs.get? i = some q →
        ∃ f, fxFor cqs q.timestamp = some f
          ∧ out.get? i = some { q with adjclose := q.adjclose * f } := by
  have h1 : get_quotes fetch ticker start end_ =
      (match fxConvert cqs nqs with
       | none => none
       | some res => some (.ok res)) := by
    unfold get_quotes yahoo_it
    rw [hF]
    dsimp only
    rw [hM]
    dsimp only
    rw [if_neg hC, hFX]
    dsimp only
    rw [hQC]
    dsimp only
    rw [hQN]
  rw [h1] at hOut
  cases hfx : fxConvert cqs nqs with
  | none => rw [hfx] at hOut; cases hOut
  | some res =>
    rw [hfx] at hOut
    injection hOut with hOut
    injection hOut with hOut
    subst hOut
    exact fxConvert_spec cqs nqs res hfx

theorem c5_currency_conversion_witness :
    fetchEUR "TE" 0 0 = .ok respEUR
    ∧ metadata respEUR = some (.ok mdEUR)
    ∧ mdEUR.currency ≠ "USD"
    ∧ quotes respFX = some (.ok [⟨90000, 4, 4, 4, 9, 6, 7⟩])
    ∧ quotes respEUR = some (.ok [⟨86400, 1, 1, 1, 5, 2, 3⟩])
    ∧ get_quotes fetchEUR "TE" 0 0 = some (.ok [⟨86400, 1, 1, 1, 5, 2, 3 * 7⟩])
    ∧ ∃ f, fxFor [⟨90000, 4, 4, 4, 9, 6, 7⟩] 86400 = some f
        ∧ ([⟨86400, 1, 1, 1, 5, 2, 3 * 7⟩] : List Quote).get? 0 =
          some { (⟨86400, 1, 1, 1, 5, 2, 3⟩ : Quote) with adjclose := 3 * f } := by
  have hqFX : quotes respFX = some (.ok [⟨90000, 4, 4, 4, 9, 6, 7⟩]) := rfl
  have hqEUR : quotes respEUR = some (.ok [⟨86400, 1, 1, 1, 5, 2, 3⟩]) := rfl
  have hOut : get_quotes fetchEUR "TE" 0 0 =
      some (.ok [⟨86400, 1, 1, 1, 5, 2, 3 * 7⟩]) := by
    unfold get_quotes yahoo_it
    rw [show fetchEUR "TE" 0 0 = .ok respEUR from rfl]
    dsimp only
    rw [show metadata respEUR = some (.ok mdEUR) from rfl]
    dsimp only
    rw [if_neg (show mdEUR.currency ≠ "USD" by decide)]
    rw [show fetchEUR (mdEUR.currency ++ "=X") 0 0 = .ok respFX by rfl]
    dsimp only
    rw [hqFX]
    dsimp only
    rw [hqEUR]
    dsimp only
    norm_num [fxConvert, fxFor, dateOf, List.find?]
  have h := c5_currency_conversion fetchEUR "TE" 0 0 respEUR respFX mdEUR
    [⟨86400, 1, 1, 1, 5, 2, 3⟩] [⟨90000, 4, 4, 4, 9, 6, 7⟩]
    [⟨86400, 1, 1, 1, 5, 2, 3 * 7⟩] rfl rfl (by decide) rfl hqFX hqEUR hOut
  exact ⟨rfl, rfl, by decide, hqFX, hqEUR, hOut,
    h.2 0 ⟨86400, 1, 1, 1, 5, 2, 3⟩ rfl⟩

end Modus
namespace Modus

theorem check_single_ok_facts {b : YQuoteBlock} {err : Option String}
    {ql : QuoteList}
    (hql : b.indicators.quote.get? 0 = some ql)
    (hok : check_consistency ⟨⟨[b], err⟩⟩ = some (.ok ())) :
    ql.open_.length = b.timestamp.length
    ∧ ql.high.length = b.timestamp.length
    ∧ ql.low.length = b.timestamp.length
    ∧ ql.volume.length = b.timestamp.length
    ∧ ql.close.length = b.timestamp.length
    ∧ (b.indicators.adjclose = none
       ∨ ∃ adj a0, b.indicators.adjclose = some adj ∧ adj.get? 0 = some a0
          ∧ a0.adjclose.length = b.timestamp.length) := by
  simp only [check_consistency, checkBlocks] at hok
  split at hok
  · simp at hok
  · rw [hql] at hok
    dsimp only at hok
    split at hok
    · simp at hok
    · rename_i h5
      push_neg at h5
      refine ⟨h5.1, h5.2.1, h5.2.2.1, h5.2.2.2.1, h5.2.2.2.2, ?_⟩
      split at hok
      · rename_i adj hadj
        split at hok
        · cases hok
        · rename_i a0 ha0
          split at hok
          · simp at hok
          · rename_i hlen
            push_neg at hlen
            exact Or.inr ⟨adj, a0, hadj, ha0, hlen⟩
      · rename_i hnone
        exact Or.inl hnone

end Modus
namespace Modus

theorem get?_isSome_of_lt {α : Type} (l : List α) (i : Nat) (h : i < l.length) :
    ∃ x, l.get? i = some x := by
  cases hc : l.get? i with
  | none => exact absurd (List.get?_eq_none.mp hc) (by omega)
  | some x => exact ⟨x, rfl⟩

theorem collectQuotes_spec {b : YQuoteBlock} {ql : QuoteList}
    (hql : b.indicators.quote.get? 0 = some ql)
    (ho : ql.open_.length = b.timestamp.length)
    (hh : ql.high.length = b.timestamp.length)
    (hl : ql.low.length = b.timestamp.length)
    (hv : ql.volume.length = b.timestamp.length)
    (hc : ql.close.length = b.timestamp.length)
    (hadj : b.indicators.adjclose = none
      ∨ ∃ adj a0, b.indicators.adjclose = some adj ∧ adj.get? 0 = some a0
          ∧ a0.adjclose.length = b.timestamp.length) :
    ∀ (k i : Nat), i + k = b.timestamp.length →
      collectQuotes b i k =
        some ((List.range' i k).filterMap (fun j =>
          match ql.close.get? j with
          | some (some c) =>
            some ⟨(b.timestamp.get? j).getD 0,
                  ((ql.open_.get? j).getD none).getD 0,
                  ((ql.high.get? j).getD none).getD 0,
                  ((ql.low.get? j).getD none).getD 0,
                  ((ql.volume.get? j).getD none).getD 0,
                  c,
                  ((((adjSeries b).getD []).get? j).getD none).getD 0⟩
          | _ => none))
  | 0, i => fun _ => by simp [collectQuotes]
  | k + 1, i => fun hik => by
    have hi : i < b.timestamp.length := by omega
    obtain ⟨ts, hts⟩ := get?_isSome_of_lt b.timestamp i hi
    obtain ⟨o, hoe⟩ := get?_isSome_of_lt ql.open_ i (by omega)
    obtain ⟨hg, hhe⟩ := get?_isSome_of_lt ql.high i (by omega)
    obtain ⟨lo, hle⟩ := get?_isSome_of_lt ql.low i (by omega)
    obtain ⟨v, hve⟩ := get?_isSome_of_lt ql.volume i (by omega)
    obtain ⟨co, hce⟩ := get?_isSome_of_lt ql.close i (by omega)
    have hgi : get_ith_quote b.indicators ts i =
        buildQuote b.indicators ts i
          ((((adjSeries b).getD []).get? i).getD none) := by
      rcases hadj with hnone | ⟨adj, a0, hadjeq, ha0, hlen⟩
      · unfold get_ith_quote
        rw [hnone]
        unfold adjSeries
        rw [hnone]
        rfl
      · obtain ⟨av, hav⟩ := get?_isSome_of_lt a0.adjclose i (by omega)
        unfold get_ith_quote adjSeries
        simp only [hadjeq, ha0, hav, Option.map_some', Option.getD_some]
    have hih := collectQuotes_spec hql ho hh hl hv hc hadj k (i + 1) (by omega)
    simp only [collectQuotes]
    rw [hts]
    try dsimp only
    rw [hgi]
    unfold buildQuote
    rw [hql]
    try dsimp only
    rw [List.range'_succ, List.filterMap_cons]
    simp only [hce]
    cases co with
    | none =>
      try dsimp only
      exact hih
    | some c =>
      try dsimp only
      simp only [hoe, hhe, hle, hve]
      try dsimp only
      rw [hih]
      simp only [Option.map_some', hts, Option.getD_some]

end Modus
namespace Modus

/-- **C7.** For every validated response block, quotes() produces exactly one
Quote per index whose close value is non-null (specProject filterMaps over all
indices, skipping null closes, never substituting); within each produced
Quote, a missing open, high or low defaults to 0, a missing volume defaults
to 0, and adjclose defaults to 0 when the adjclose series is wholly absent. -/
theorem c7_quote_projection (b : YQuoteBlock) (ql : QuoteList)
    (err : Option String)
    (hql : b.indicators.quote.get? 0 = some ql)
    (hok : check_consistency ⟨⟨[b], err⟩⟩ = some (.ok ())) :
    quotes ⟨⟨[b], err⟩⟩ = some (.ok (specProject b ql)) := by
  obtain ⟨ho, hh, hl, hv, hc, hadj⟩ := check_single_ok_facts hql hok
  have hcol := collectQuotes_spec hql ho hh hl hv hc hadj
    b.timestamp.length 0 (by omega)
  unfold quotes
  rw [hok]
  dsimp only
  simp only [List.get?_cons_zero]
  rw [hcol]
  unfold specProject
  rw [List.range_eq_range']

theorem c7_quote_projection_witness :
    (⟨[none, some 4, some 5], [some 9, none, none], [some 1, none, some 2],
      [none, none, none], [none, some 8, none]⟩ : QuoteList).close =
      [some 1, none, some 2]
    ∧ check_consistency respSparse = some (.ok ())
    ∧ quotes respSparse =
        some (.ok [⟨0, 0, 9, 0, 0, 1, 0⟩, ⟨172800, 0, 0, 0, 5, 2, 0⟩]) := by
  have h := c7_quote_projection
    ⟨mdUSD, [0, 86400, 172800],
      ⟨[⟨[none, some 4, some 5], [some 9, none, none], [some 1, none, some 2],
        [none, none, none], [none, some 8, none]⟩], none⟩⟩
    ⟨[none, some 4, some 5], [some 9, none, none], [some 1, none, some 2],
      [none, none, none], [none, some 8, none]⟩
    none rfl rfl
  refine ⟨rfl, rfl, ?_⟩
  rw [show quotes respSparse =
    some (.ok (specProject
      ⟨mdUSD, [0, 86400, 172800],
        ⟨[⟨[none, some 4, some 5], [some 9, none, none], [some 1, none, some 2],
          [none, none, none], [none, some 8, none]⟩], none⟩⟩
      ⟨[none, some 4, some 5], [some 9, none, none], [some 1, none, some 2],
        [none, none, none], [none, some 8, none]⟩)) from h]
  norm_num [specProject, adjSeries, List.range, List.range', List.filterMap]

end Modus
